import Mathlib

/-!
# graveldb: namespaces over an ordered key-value store

A shallow embedding of `pkg/kv/interface.go`,
`pkg/namespace/{keys,errors,service,garbage-collection}.go` and
`pkg/namespace/endpoints/http.go`.

* Go byte slices and strings are lists of characters (`Bytes`); a slice result that
  may be `nil` is an `Option Bytes`.
* A Go `error` is an `Option Error` (`none` is `nil`); error values carry the identity
  of their allocation, and `errors.Is` walks the chain of wrapped causes.
* The store behind `kv.Service` is an interface: it is a record of functions over an
  abstract state `σ`.  Reads observe the state, writes return the next state.
* Every call the service issues on its store is appended to a log (`World.calls`),
  in the way the mock store of `service_test.go` records them.
* The loop of the collector is run over the `select`s it reaches; each is given by what
  is ready at it (the cancellation, a tick) and by the case it takes.
-/

namespace GravelDB

/-- Go `[]byte` and `string`: a sequence of bytes. -/
abbrev Bytes := List Char

/-- A non-nil Go `error` value.  `New id` is the value made by one evaluation of
`errors.New` (the `id` is its identity), `WithMessage cause msg` is the wrapper made
by `errors.WithMessagef`. -/
inductive Error where
  | New (id : Nat)
  | WithMessage (cause : Error) (msg : Bytes)
  deriving DecidableEq

namespace errors

/-- `errors.Is(err, target)` for a non-nil `err`: `err` or one of the causes it wraps
is the value `target`. -/
def Is : Error → Error → Bool
  | Error.New id, target => decide (Error.New id = target)
  | Error.WithMessage cause msg, target =>
      decide (Error.WithMessage cause msg = target) || Is cause target

end errors

namespace bytes

/-- `bytes.Equal(a, b)`: same length and same bytes; a nil slice equals an empty one. -/
def Equal (a b : Option Bytes) : Bool :=
  decide (a.getD [] = b.getD [])

end bytes

namespace kv

/-- The sentinel `kv.ErrKeyNotFound`.  Its declaration is in a file of package `kv`
that is not among the sources; it is an error value of its own, allocated apart from
the four sentinels of package `namespace`. -/
def ErrKeyNotFound : Error := Error.New 0

/-- `kv.Reader` of `pkg/kv/interface.go`.  An iterator is given by the entries it
yields from `First` on, in order. -/
structure Reader (σ : Type) where
  Has : σ → Bytes → Bool × Option Error
  Get : σ → Bytes → Option Bytes × Option Error
  NewIterator : σ → Bytes → Option Bytes → List (Bytes × Bytes)

/-- `kv.Writer` of `pkg/kv/interface.go`. -/
structure Writer (σ : Type) where
  Set : σ → Bytes → Bytes → Option Error × σ
  Delete : σ → Bytes → Option Error × σ

/-- `kv.ReadWriter` of `pkg/kv/interface.go`. -/
structure ReadWriter (σ : Type) extends Reader σ, Writer σ

/-- `kv.Service` of `pkg/kv/interface.go`: a `ReadWriter` and a `Batcher`.  A batch
function (`BatchReaderFunc`, `BatchReadWriterFunc`) is handed the reader or read-writer
of the batch and the state it starts from. -/
structure Service (σ : Type) extends ReadWriter σ where
  ROBatch : σ → (Reader σ → σ → Option Error) → Option Error
  RWBatch : σ → (ReadWriter σ → σ → Option Error × σ) → Option Error × σ

end kv

/-- One call on the store, as the service issues it. -/
inductive Call where
  | Get (key : Bytes)
  | Set (key value : Bytes)
  | Delete (key : Bytes)
  | NewIterator (lower : Bytes) (upper : Option Bytes)
  | RWBatch
  deriving DecidableEq

/-- The store as the service sees it: its current state and the calls issued on it so
far, oldest first.  The calls that a batch function issues on the read-writer of its
batch are logged in the world the function runs in. -/
structure World (σ : Type) where
  db : σ
  calls : List Call

/-- The call `svc.db.Get(key)`. -/
def dbGet {σ : Type} (db : kv.ReadWriter σ) (w : World σ) (key : Bytes) :
    (Option Bytes × Option Error) × World σ :=
  (db.Get w.db key, { db := w.db, calls := w.calls ++ [Call.Get key] })

/-- The call `svc.db.Set(key, value)`. -/
def dbSet {σ : Type} (db : kv.ReadWriter σ) (w : World σ) (key value : Bytes) :
    Option Error × World σ :=
  ((db.Set w.db key value).1,
    { db := (db.Set w.db key value).2, calls := w.calls ++ [Call.Set key value] })

/-- The call `svc.db.Delete(key)`. -/
def dbDelete {σ : Type} (db : kv.ReadWriter σ) (w : World σ) (key : Bytes) :
    Option Error × World σ :=
  ((db.Delete w.db key).1,
    { db := (db.Delete w.db key).2, calls := w.calls ++ [Call.Delete key] })

/-- The call `db.NewIterator(lower, upper)`: the entries the iterator yields. -/
def dbNewIterator {σ : Type} (db : kv.Reader σ) (w : World σ) (lower : Bytes)
    (upper : Option Bytes) : List (Bytes × Bytes) × World σ :=
  (db.NewIterator w.db lower upper,
    { db := w.db, calls := w.calls ++ [Call.NewIterator lower upper] })

/-- The call `svc.db.RWBatch(fn)`.  The calls that `fn` issues on the read-writer of
the batch are calls on the batch, they are not in the log of the store. -/
def dbRWBatch {σ : Type} (db : kv.Service σ) (w : World σ)
    (fn : kv.ReadWriter σ → σ → Option Error × σ) : Option Error × World σ :=
  ((db.RWBatch w.db fn).1,
    { db := (db.RWBatch w.db fn).2, calls := w.calls ++ [Call.RWBatch] })

namespace strings

/-- `strings.TrimPrefix(s, p)`: `s` without the leading `p` when `s` starts with `p`,
else `s` itself. -/
def TrimPrefix (s p : Bytes) : Bytes :=
  if p.isPrefixOf s then s.drop p.length else s

end strings

/-- The two string constants `MetaPrefix` and `NamespacePrefix` of package
`namespace`; their declaration is not among the sources, so they are parameters. -/
structure Config where
  MetaPrefix : Bytes
  NamespacePrefix : Bytes

namespace Namespace

/-- Sentinel `ErrNamespaceAlreadyExists` of `errors.go`. -/
def ErrNamespaceAlreadyExists : Error := Error.New 1
/-- Sentinel `ErrNamespaceNotFound` of `errors.go`. -/
def ErrNamespaceNotFound : Error := Error.New 2
/-- Sentinel `ErrNamespaceDeleting` of `errors.go`. -/
def ErrNamespaceDeleting : Error := Error.New 3
/-- Sentinel `ErrKeyNotFound` of `errors.go`. -/
def ErrKeyNotFound : Error := Error.New 4

/-- The value `[]byte("EXISTS")`. -/
def NamespaceExistsValue : Bytes := ['E', 'X', 'I', 'S', 'T', 'S']
/-- The value `[]byte("DELETING")`. -/
def NamespaceDeletingValue : Bytes := ['D', 'E', 'L', 'E', 'T', 'I', 'N', 'G']

/-- `generateMetaKey` of `keys.go`: `MetaPrefix + "." + name`. -/
def generateMetaKey (c : Config) (name : Bytes) : Bytes :=
  c.MetaPrefix ++ ['.'] ++ name

/-- `generateNamespaceKey` of `keys.go`: `NamespacePrefix + "." + name + "." + key`. -/
def generateNamespaceKey (c : Config) (name key : Bytes) : Bytes :=
  c.NamespacePrefix ++ ['.'] ++ name ++ ['.'] ++ key

/-- `service.IsActive` of `service.go`. -/
def IsActive {σ : Type} (c : Config) (db : kv.ReadWriter σ) (w : World σ) (name : Bytes) :
    (Bool × Option Error) × World σ :=
  let key := generateMetaKey c name
  let r := dbGet db w key
  match r.1.2 with
  | some err =>
      if errors.Is err kv.ErrKeyNotFound then ((false, none), r.2)
      else ((false, some err), r.2)
  | none => ((bytes.Equal r.1.1 (some NamespaceExistsValue), none), r.2)

/-- `service.CreateNamespace` of `service.go`. -/
def CreateNamespace {σ : Type} (c : Config) (db : kv.ReadWriter σ) (w : World σ)
    (name : Bytes) : Option Error × World σ :=
  let key := generateMetaKey c name
  let r := dbGet db w key
  let value := r.1.1
  let readFailed : Bool :=
    match r.1.2 with
    | some err => !errors.Is err kv.ErrKeyNotFound
    | none => false
  if readFailed then (r.1.2, r.2)
  else if bytes.Equal value (some NamespaceExistsValue) then
    (some ErrNamespaceAlreadyExists, r.2)
  else if bytes.Equal value (some NamespaceDeletingValue) then
    (some ErrNamespaceDeleting, r.2)
  else
    let q := dbSet db r.2 key NamespaceExistsValue
    match q.1 with
    | some err => (some err, q.2)
    | none => (none, q.2)

/-- `service.DeleteNamespace` of `service.go`. -/
def DeleteNamespace {σ : Type} (c : Config) (db : kv.ReadWriter σ) (w : World σ)
    (name : Bytes) : Option Error × World σ :=
  let key := generateMetaKey c name
  let r := dbGet db w key
  let value := r.1.1
  match r.1.2 with
  | some err =>
      if errors.Is err kv.ErrKeyNotFound then (some ErrNamespaceNotFound, r.2)
      else (some err, r.2)
  | none =>
      if bytes.Equal value (some NamespaceDeletingValue) then
        (some ErrNamespaceDeleting, r.2)
      else
        let q := dbSet db r.2 key NamespaceDeletingValue
        match q.1 with
        | some err => (some err, q.2)
        | none => (none, q.2)

/-- `service.GetKey` of `service.go`. -/
def GetKey {σ : Type} (c : Config) (db : kv.ReadWriter σ) (w : World σ)
    (ns key : Bytes) : (Option Bytes × Option Error) × World σ :=
  let a := IsActive c db w ns
  match a.1.2 with
  | some err => ((none, some err), a.2)
  | none =>
      if !a.1.1 then ((none, some ErrNamespaceNotFound), a.2)
      else
        let byteKey := generateNamespaceKey c ns key
        let r := dbGet db a.2 byteKey
        match r.1.2 with
        | some err => ((none, some err), r.2)
        | none => ((r.1.1, none), r.2)

/-- `service.SetKey` of `service.go`. -/
def SetKey {σ : Type} (c : Config) (db : kv.ReadWriter σ) (w : World σ)
    (ns key value : Bytes) : Option Error × World σ :=
  let a := IsActive c db w ns
  match a.1.2 with
  | some err => (some err, a.2)
  | none =>
      if !a.1.1 then (some ErrNamespaceNotFound, a.2)
      else
        let byteKey := generateNamespaceKey c ns key
        let q := dbSet db a.2 byteKey value
        match q.1 with
        | some err => (some err, q.2)
        | none => (none, q.2)

/-- `service.DeleteKey` of `service.go`. -/
def DeleteKey {σ : Type} (c : Config) (db : kv.ReadWriter σ) (w : World σ)
    (ns key : Bytes) : Option Error × World σ :=
  let a := IsActive c db w ns
  match a.1.2 with
  | some err => (some err, a.2)
  | none =>
      if !a.1.1 then (some ErrNamespaceNotFound, a.2)
      else
        let byteKey := generateNamespaceKey c ns key
        let q := dbDelete db a.2 byteKey
        match q.1 with
        | some err => (some err, q.2)
        | none => (none, q.2)

/-- `deletedNamespaces` of `garbage-collection.go`: the iterator is opened at
`generateMetaKey("")` with a nil upper bound; an entry whose value is not `DELETING` is
skipped, of every other entry the key without the leading `MetaPrefix + "."` is
appended to the names. -/
def deletedNamespaces {σ : Type} (c : Config) (db : kv.Reader σ) (w : World σ) :
    List Bytes × World σ :=
  let lower := generateMetaKey c []
  let iter := dbNewIterator db w lower none
  (iter.1.filterMap (fun e =>
      if !bytes.Equal (some e.2) (some NamespaceDeletingValue) then none
      else some (strings.TrimPrefix e.1 (c.MetaPrefix ++ ['.']))),
    iter.2)

/-- The `for iter.First(); iter.Valid(); iter.Next()` loop of `wipeNamespace`, on the
entries the iterator yields: each key is deleted, the first failing `Delete` ends the
loop with its error. -/
def wipeNamespaceLoop {σ : Type} (rw : kv.ReadWriter σ) :
    World σ → List (Bytes × Bytes) → Option Error × World σ
  | w, [] => (none, w)
  | w, e :: rest =>
      match (dbDelete rw w e.1).1 with
      | some err => (some err, (dbDelete rw w e.1).2)
      | none => wipeNamespaceLoop rw (dbDelete rw w e.1).2 rest

/-- `wipeNamespace` of `garbage-collection.go`: the iterator is opened at
`generateNamespaceKey(name, "")` with a nil upper bound. -/
def wipeNamespace {σ : Type} (c : Config) (rw : kv.ReadWriter σ) (w : World σ)
    (name : Bytes) : Option Error × World σ :=
  let key := generateNamespaceKey c name []
  let iter := dbNewIterator rw.toReader w key none
  let r := wipeNamespaceLoop rw iter.2 iter.1
  match r.1 with
  | some err => (some err, r.2)
  | none =>
      let key := generateMetaKey c name
      let q := dbDelete rw r.2 key
      match q.1 with
      | some err => (some err, q.2)
      | none => (none, q.2)

/-- The function `func(rw kv.ReadWriter) error { return wipeNamespace(rw, name) }` that
`garbageCollectNamespaces` hands to `RWBatch`. -/
def wipeBatch {σ : Type} (c : Config) (name : Bytes) (rw : kv.ReadWriter σ) (s : σ) :
    Option Error × σ :=
  ((wipeNamespace c rw { db := s, calls := [] } name).1,
    (wipeNamespace c rw { db := s, calls := [] } name).2.db)

/-- The message `"namespace: %s"` of `garbageCollectNamespaces`, formatted with `name`. -/
def namespaceMessage (name : Bytes) : Bytes :=
  ['n', 'a', 'm', 'e', 's', 'p', 'a', 'c', 'e', ':', ' '] ++ name

/-- `service.garbageCollectNamespaces` of `service.go`. -/
def garbageCollectNamespaces {σ : Type} (c : Config) (db : kv.Service σ) :
    World σ → List Bytes → Option Error × World σ
  | w, [] => (none, w)
  | w, name :: rest =>
      match (dbRWBatch db w (wipeBatch c name)).1 with
      | some err =>
          (some (Error.WithMessage err (namespaceMessage name)),
            (dbRWBatch db w (wipeBatch c name)).2)
      | none => garbageCollectNamespaces c db (dbRWBatch db w (wipeBatch c name)).2 rest

/-- The `case <-t.Chan():` branch of `service.GarbageCollection` in `service.go`, one
garbage-collection cycle: the error it hands to `svc.log.Error` (`none` when it logs no
error) and the store after it. -/
def GarbageCollectionTick {σ : Type} (c : Config) (db : kv.Service σ) (w : World σ) :
    Option Error × World σ :=
  let names := deletedNamespaces c db.toReader w
  if names.1.length = 0 then (none, names.2)
  else garbageCollectNamespaces c db names.2 names.1

/-- The two cases of the `select` of `service.GarbageCollection`: `case <-ctx.Done()`
and `case <-t.Chan()`. -/
inductive Branch where
  | cancelled
  | tick
  deriving DecidableEq

/-- What can proceed when the loop reaches its `select`: `cancelled` says that the
context is cancelled (`ctx.Done()` is closed), `tick` that a tick is ready on
`t.Chan()`. -/
structure Ready where
  cancelled : Bool
  tick : Bool
  deriving DecidableEq

/-- The `select` statement of Go: a case is taken only when its communication can
proceed; when both can, either case may be taken. -/
def Ready.allows (r : Ready) : Branch → Bool
  | Branch.cancelled => r.cancelled
  | Branch.tick => r.tick

/-- The loop of `service.GarbageCollection`: it is at its `select` with the store `w`,
or it has returned and left the store `w`. -/
inductive Loop (σ : Type) where
  | running (w : World σ)
  | returned (w : World σ)

/-- One turn of the loop of `service.GarbageCollection` in `service.go`, for the case
its `select` takes: `return` in the case `<-ctx.Done()`, one garbage-collection cycle
and back to the `select` in the case `<-t.Chan()`. -/
def GarbageCollectionStep {σ : Type} (c : Config) (db : kv.Service σ) (w : World σ) :
    Branch → Loop σ
  | Branch.cancelled => Loop.returned w
  | Branch.tick => Loop.running (GarbageCollectionTick c db w).2

/-- The function `service.GarbageCollection` of `service.go`, run over the `select`s it
reaches: each comes with what is ready at it and the case taken.  When the list ends
the loop waits at its `select`. -/
def GarbageCollection {σ : Type} (c : Config) (db : kv.Service σ) :
    World σ → List (Ready × Branch) → Loop σ
  | w, [] => Loop.running w
  | w, x :: rest =>
      match GarbageCollectionStep c db w x.2 with
      | Loop.returned w1 => Loop.returned w1
      | Loop.running w1 => GarbageCollection c db w1 rest

/-- The runs that the `select` of Go admits: at every `select` the case taken is one
that can proceed. -/
def Admissible (run : List (Ready × Branch)) : Prop :=
  ∀ x ∈ run, x.1.allows x.2 = true

end Namespace

namespace http

/-- `http.StatusAccepted`. -/
def StatusAccepted : Int := 202
/-- `http.StatusBadRequest`. -/
def StatusBadRequest : Int := 400
/-- `http.StatusNotFound`. -/
def StatusNotFound : Int := 404
/-- `http.StatusConflict`. -/
def StatusConflict : Int := 409
/-- `http.StatusInternalServerError`. -/
def StatusInternalServerError : Int := 500

end http

namespace endpoints

/-- `writeErrorResponse` of `endpoints/http.go`: the status code handed to
`w.WriteHeader`.  The `switch err` compares `err` with each sentinel by `==`. -/
def writeErrorResponse (err : Option Error) (code : Int) : Int :=
  if err = some Namespace.ErrNamespaceAlreadyExists then http.StatusConflict
  else if err = some Namespace.ErrNamespaceDeleting then http.StatusBadRequest
  else if err = some Namespace.ErrNamespaceNotFound then http.StatusNotFound
  else if err = some Namespace.ErrKeyNotFound then http.StatusNotFound
  else if code ≠ 0 then code
  else http.StatusInternalServerError

/-- `NewGetKeyHandler` of `endpoints/http.go`, on the route variables `ns` and `key`:
the status code written and the body written after it (`none` when no body is
written).  The second `ns == ""` test of the source repeats the first one. -/
def NewGetKeyHandler {σ : Type} (c : Config) (db : kv.ReadWriter σ) (w : World σ)
    (ns key : Bytes) : (Int × Option Bytes) × World σ :=
  if ns = [] then ((writeErrorResponse none http.StatusBadRequest, none), w)
  else if ns = [] then ((writeErrorResponse none http.StatusBadRequest, none), w)
  else
    let r := Namespace.GetKey c db w ns key
    match r.1.2 with
    | some err => ((writeErrorResponse (some err) 0, none), r.2)
    | none => ((http.StatusAccepted, some (r.1.1.getD [])), r.2)

end endpoints

/-! ## The store contract the service relies on -/

namespace kv

/-- Per-key read-after-write: a `Get` right after a successful `Set` of the same key
returns the value written. -/
def ReadAfterWrite {σ : Type} (db : ReadWriter σ) : Prop :=
  ∀ s key value, (db.Set s key value).1 = none →
    db.Get (db.Set s key value).2 key = (some value, none)

/-- A successful `Set` of one key leaves what `Get` returns for every other key. -/
def SetFrame {σ : Type} (db : ReadWriter σ) : Prop :=
  ∀ s key value k, (db.Set s key value).1 = none → k ≠ key →
    db.Get (db.Set s key value).2 k = db.Get s k

/-- A `Get` right after a successful `Delete` of the same key returns no value and an
error that is `ErrKeyNotFound`. -/
def ReadAfterDelete {σ : Type} (db : ReadWriter σ) : Prop :=
  ∀ s key, (db.Delete s key).1 = none →
    ∃ e, errors.Is e ErrKeyNotFound = true ∧ db.Get (db.Delete s key).2 key = (none, some e)

/-- A successful `Delete` of one key leaves what `Get` returns for every other key. -/
def DeleteFrame {σ : Type} (db : ReadWriter σ) : Prop :=
  ∀ s key k, (db.Delete s key).1 = none → k ≠ key →
    db.Get (db.Delete s key).2 k = db.Get s k

/-- A `Set` that fails leaves what `Get` returns for its key. -/
def FailedSetKeeps {σ : Type} (db : ReadWriter σ) : Prop :=
  ∀ s key value e, (db.Set s key value).1 = some e →
    db.Get (db.Set s key value).2 key = db.Get s key

/-- The key is absent from the store: `Get` returns no value and an error that is
`ErrKeyNotFound`. -/
def Absent {σ : Type} (db : ReadWriter σ) (s : σ) (key : Bytes) : Prop :=
  ∃ e, errors.Is e ErrKeyNotFound = true ∧ db.Get s key = (none, some e)

/-- Delete is idempotent: the `Delete` of an absent key is not an error and leaves the
store as it is. -/
def DeleteAbsent {σ : Type} (db : ReadWriter σ) : Prop :=
  ∀ s key, Absent db s key → db.Delete s key = (none, s)

/-- A `Set` or a `Delete` of one key, successful or not, leaves what `Get` returns for
every other key. -/
def Frame {σ : Type} (db : ReadWriter σ) : Prop :=
  (∀ s key value k, k ≠ key → db.Get (db.Set s key value).2 k = db.Get s k) ∧
  (∀ s key k, k ≠ key → db.Get (db.Delete s key).2 k = db.Get s k)

/-- An iterator opened at `lower` with no upper bound covers the keys that start with
`lower`: such a key is absent from the store, or `Get` returns its value and the
iterator yields its entry. -/
def IterCovers {σ : Type} (db : ReadWriter σ) : Prop :=
  ∀ s lower key, lower <+: key →
    Absent db s key ∨
      ∃ v, db.Get s key = (some v, none) ∧ (key, v) ∈ db.NewIterator s lower none

/-- All-or-nothing batches: `RWBatch` runs the function once on the read-writer of the
store and the current state; it keeps the writes and returns no error when the function
returns none, and drops the writes and returns the error of the function otherwise. -/
def AllOrNothing {σ : Type} (db : Service σ) : Prop :=
  ∀ s fn, db.RWBatch s fn =
    match (fn db.toReadWriter s).1 with
    | some err => (some err, s)
    | none => (none, (fn db.toReadWriter s).2)

/-- The state of the store after the `Delete` of each of `keys`, issued in order from
the state `s`. -/
def deleteAll {σ : Type} (db : ReadWriter σ) : σ → List Bytes → σ
  | s, [] => s
  | s, key :: rest => deleteAll db (db.Delete s key).2 rest

/-- Every `Delete` of `keys`, issued in order from the state `s`, returns no error. -/
def DeletesSucceed {σ : Type} (db : ReadWriter σ) : σ → List Bytes → Prop
  | _, [] => True
  | s, key :: rest => (db.Delete s key).1 = none ∧ DeletesSucceed db (db.Delete s key).2 rest

end kv

/-- The property of the two prefixes under which meta keys and data keys are apart:
neither of `MetaPrefix + "."` and `NamespacePrefix + "."` is a prefix of the other. -/
def Config.Apart (c : Config) : Prop :=
  ¬ (c.MetaPrefix ++ ['.']) <+: (c.NamespacePrefix ++ ['.']) ∧
  ¬ (c.NamespacePrefix ++ ['.']) <+: (c.MetaPrefix ++ ['.'])

/-! ## An in-memory store -/

/-- Modelled from the spec: the ordered key-value engine behind `kv.Service` is not
among the sources.  The store is the list of its entries in ascending key order, one
entry per key. -/
abbrev MemStore := List (Bytes × Bytes)

namespace MemStore

/-- Byte-wise lexicographic order on keys, strict. -/
def lt : Bytes → Bytes → Bool
  | [], [] => false
  | [], _ :: _ => true
  | _ :: _, [] => false
  | a :: as, b :: bs =>
      if a.toNat < b.toNat then true
      else if b.toNat < a.toNat then false
      else lt as bs

/-- Modelled from the spec: `get(key) -> bytes, error (fails NotFound when absent)`. -/
def Get : MemStore → Bytes → Option Bytes × Option Error
  | [], _ => (none, some kv.ErrKeyNotFound)
  | (k, v) :: rest, key => if k = key then (some v, none) else Get rest key

/-- Modelled from the spec: `has(key) -> bool, error`. -/
def Has (s : MemStore) (key : Bytes) : Bool × Option Error :=
  ((Get s key).1.isSome, none)

/-- The entries after `set(key, value)`: the entry of `key` is replaced, or a new one
is put at its place in the order. -/
def put : MemStore → Bytes → Bytes → MemStore
  | [], key, value => [(key, value)]
  | (k, v) :: rest, key, value =>
      if k = key then (key, value) :: rest
      else if lt key k then (key, value) :: (k, v) :: rest
      else (k, v) :: put rest key value

/-- Modelled from the spec: `set(key, value) -> error`. -/
def Set (s : MemStore) (key value : Bytes) : Option Error × MemStore :=
  (none, put s key value)

/-- The entries after `delete(key)`: every entry but the one of `key`. -/
def remove : MemStore → Bytes → MemStore
  | [], _ => []
  | (k, v) :: rest, key => if k = key then remove rest key else (k, v) :: remove rest key

/-- Modelled from the spec: `delete(key) -> error` (delete is idempotent: absent key is
not an error). -/
def Delete (s : MemStore) (key : Bytes) : Option Error × MemStore :=
  (none, remove s key)

/-- Modelled from the spec: `newIterator(lowerInclusive, upperExclusiveOrUnbounded)`,
forward iteration over the keys in `[lower, upper)`, unbounded above when `upper` is
nil. -/
def NewIterator (s : MemStore) (lower : Bytes) (upper : Option Bytes) :
    List (Bytes × Bytes) :=
  s.filter (fun e =>
    !lt e.1 lower &&
      (match upper with
       | some u => lt e.1 u
       | none => true))

end MemStore

/-- The in-memory store as a `kv.ReadWriter`. -/
def memKV : kv.ReadWriter MemStore where
  Has := MemStore.Has
  Get := MemStore.Get
  NewIterator := MemStore.NewIterator
  Set := MemStore.Set
  Delete := MemStore.Delete

/-- Modelled from the spec: `rwBatch(fn(ReadWriter) -> error) -> error`, which executes
`fn` with all-or-nothing semantics over the writes of the batch: they are kept when `fn`
returns no error and dropped when it returns one. -/
def MemStore.RWBatch (rw : kv.ReadWriter MemStore) (s : MemStore)
    (fn : kv.ReadWriter MemStore → MemStore → Option Error × MemStore) :
    Option Error × MemStore :=
  match (fn rw s).1 with
  | some err => (some err, s)
  | none => (none, (fn rw s).2)

/-- The in-memory store as a `kv.Service`. -/
def memService : kv.Service MemStore where
  toReadWriter := memKV
  ROBatch := fun s fn => fn memKV.toReader s
  RWBatch := MemStore.RWBatch memKV

/-- The error of the failing `Delete` of `faultyKV`, the `testErr` of
`service_test.go`. -/
def testErr : Error := Error.New 100

/-- The in-memory store whose `Delete` of the key `bad` fails with `testErr` and
deletes nothing, as the mock store of the test `error while deleting namespace key`
does. -/
def faultyKV (bad : Bytes) : kv.ReadWriter MemStore where
  Has := MemStore.Has
  Get := MemStore.Get
  NewIterator := MemStore.NewIterator
  Set := MemStore.Set
  Delete := fun s key => if key = bad then (some testErr, s) else MemStore.Delete s key

/-- The store `faultyKV bad` as a `kv.Service`, with all-or-nothing batches. -/
def faultyService (bad : Bytes) : kv.Service MemStore where
  toReadWriter := faultyKV bad
  ROBatch := fun s fn => fn (faultyKV bad).toReader s
  RWBatch := MemStore.RWBatch (faultyKV bad)

/-- The in-memory store with injected failures, as the mock store of the tests `error
getting namespace key`, `error setting key` and `error deleting key` has them: when
`getErr`, `setErr` or `delErr` is an error, every `Get`, `Set` or `Delete` fails with it
and changes nothing. -/
def failingKV (getErr setErr delErr : Option Error) : kv.ReadWriter MemStore where
  Has := MemStore.Has
  Get := fun s key =>
    match getErr with
    | some err => (none, some err)
    | none => MemStore.Get s key
  NewIterator := MemStore.NewIterator
  Set := fun s key value =>
    match setErr with
    | some err => (some err, s)
    | none => MemStore.Set s key value
  Delete := fun s key =>
    match delErr with
    | some err => (some err, s)
    | none => MemStore.Delete s key

/-- Example values for the two prefixes. -/
def exampleConfig : Config where
  MetaPrefix := ['m', 'e', 't', 'a']
  NamespacePrefix := ['n', 's']

/-- Example values for the two prefixes with the data range before the meta range. -/
def exampleConfigSwapped : Config where
  MetaPrefix := ['m', 'e', 't', 'a']
  NamespacePrefix := ['d', 'b']

/-- An in-memory store with the namespace `a` marked `DELETING` and the active
namespace `b`, each with its data key `k`. -/
def exampleGC : World MemStore :=
  { db := [(Namespace.generateMetaKey exampleConfig ['a'], Namespace.NamespaceDeletingValue),
      (Namespace.generateMetaKey exampleConfig ['b'], Namespace.NamespaceExistsValue),
      (Namespace.generateNamespaceKey exampleConfig ['a'] ['k'], ['v']),
      (Namespace.generateNamespaceKey exampleConfig ['b'] ['k'], ['v'])],
    calls := [] }

/-- The store of `exampleGC` under the prefixes of `exampleConfigSwapped`. -/
def exampleGCSwapped : World MemStore :=
  { db := [(Namespace.generateNamespaceKey exampleConfigSwapped ['a'] ['k'], ['v']),
      (Namespace.generateNamespaceKey exampleConfigSwapped ['b'] ['k'], ['v']),
      (Namespace.generateMetaKey exampleConfigSwapped ['a'],
        Namespace.NamespaceDeletingValue),
      (Namespace.generateMetaKey exampleConfigSwapped ['b'],
        Namespace.NamespaceExistsValue)],
    calls := [] }

/-- An in-memory store with the active namespaces `a` and `z` only; the value that a
client has set under the key `k` of `a` is the bytes `DELETING`. -/
def exampleUserValue : World MemStore :=
  { db := [(Namespace.generateMetaKey exampleConfig ['a'], Namespace.NamespaceExistsValue),
      (Namespace.generateMetaKey exampleConfig ['z'], Namespace.NamespaceExistsValue),
      (Namespace.generateNamespaceKey exampleConfig ['a'] ['k'],
        Namespace.NamespaceDeletingValue),
      (Namespace.generateNamespaceKey exampleConfig ['z'] ['k'], ['v'])],
    calls := [] }

/-- An in-memory store with the active namespace `a` and one key that is neither a meta
key nor a data key, `meta/x`, which sorts after every meta key and holds the bytes
`DELETING`. -/
def exampleForeign : World MemStore :=
  { db := [(Namespace.generateMetaKey exampleConfig ['a'], Namespace.NamespaceExistsValue),
      (['m', 'e', 't', 'a', '/', 'x'], Namespace.NamespaceDeletingValue)],
    calls := [] }

/-- An in-memory store with the namespaces `a` and `b` both marked `DELETING`, and the
data key `k` of `a`. -/
def exampleTwoDeleting : World MemStore :=
  { db := [(Namespace.generateMetaKey exampleConfig ['a'], Namespace.NamespaceDeletingValue),
      (Namespace.generateMetaKey exampleConfig ['b'], Namespace.NamespaceDeletingValue),
      (Namespace.generateNamespaceKey exampleConfig ['a'] ['k'], ['v'])],
    calls := [] }

/-- An in-memory store with the namespaces `a`, `b` and `c` all marked `DELETING`, and
the data key `k` of `a`. -/
def exampleThreeDeleting : World MemStore :=
  { db := [(Namespace.generateMetaKey exampleConfig ['a'], Namespace.NamespaceDeletingValue),
      (Namespace.generateMetaKey exampleConfig ['b'], Namespace.NamespaceDeletingValue),
      (Namespace.generateMetaKey exampleConfig ['c'], Namespace.NamespaceDeletingValue),
      (Namespace.generateNamespaceKey exampleConfig ['a'] ['k'], ['v'])],
    calls := [] }

/-- An in-memory store with the namespaces `a` and `b` both marked `DELETING`, and the
data keys `j`, `k` and `m` of `a`. -/
def exampleThreeKeys : World MemStore :=
  { db := [(Namespace.generateMetaKey exampleConfig ['a'], Namespace.NamespaceDeletingValue),
      (Namespace.generateMetaKey exampleConfig ['b'], Namespace.NamespaceDeletingValue),
      (Namespace.generateNamespaceKey exampleConfig ['a'] ['j'], ['u']),
      (Namespace.generateNamespaceKey exampleConfig ['a'] ['k'], ['v']),
      (Namespace.generateNamespaceKey exampleConfig ['a'] ['m'], ['w'])],
    calls := [] }

/-- One call of a lifecycle operation of `Service` (`interface.go`), garbage collection
apart. -/
inductive Op where
  | CreateNamespace (name : Bytes)
  | DeleteNamespace (name : Bytes)
  | GetKey (ns key : Bytes)
  | SetKey (ns key value : Bytes)
  | DeleteKey (ns key : Bytes)

/-- The store after one lifecycle operation; what the operation returns is dropped. -/
def Op.run {σ : Type} (c : Config) (db : kv.ReadWriter σ) (w : World σ) : Op → World σ
  | Op.CreateNamespace name => (Namespace.CreateNamespace c db w name).2
  | Op.DeleteNamespace name => (Namespace.DeleteNamespace c db w name).2
  | Op.GetKey ns key => (Namespace.GetKey c db w ns key).2
  | Op.SetKey ns key value => (Namespace.SetKey c db w ns key value).2
  | Op.DeleteKey ns key => (Namespace.DeleteKey c db w ns key).2

/-- The store after a finite sequence of lifecycle operations, run in order. -/
def runOps {σ : Type} (c : Config) (db : kv.ReadWriter σ) : World σ → List Op → World σ
  | w, [] => w
  | w, op :: rest => runOps c db (Op.run c db w op) rest

/-- One call of an operation of `Service` (`interface.go`): a lifecycle operation, or
one garbage-collection cycle of `GarbageCollection`. -/
inductive Action where
  | op (o : Op)
  | gc

/-- The store after one operation of the service. -/
def Action.run {σ : Type} (c : Config) (db : kv.Service σ) (w : World σ) :
    Action → World σ
  | Action.op o => Op.run c db.toReadWriter w o
  | Action.gc => (Namespace.GarbageCollectionTick c db w).2

/-- The store after a finite sequence of operations of the service, run in order. -/
def runActions {σ : Type} (c : Config) (db : kv.Service σ) :
    World σ → List Action → World σ
  | w, [] => w
  | w, a :: rest => runActions c db (Action.run c db w a) rest

/-- The meta-value invariant: every entry of the meta range (a key that starts with
`MetaPrefix + "."`) that `Get` finds has the value `EXISTS` or `DELETING`. -/
def MetaValuesOk {σ : Type} (c : Config) (db : kv.ReadWriter σ) (s : σ) : Prop :=
  ∀ k v, (c.MetaPrefix ++ ['.']) <+: k → db.Get s k = (some v, none) →
    v = Namespace.NamespaceExistsValue ∨ v = Namespace.NamespaceDeletingValue

/-- The empty in-memory store, no call issued yet. -/
def exampleEmpty : World MemStore :=
  { db := [], calls := [] }

/-- An in-memory store with the active namespace `a` and no data key. -/
def exampleBare : World MemStore :=
  { db := [(Namespace.generateMetaKey exampleConfig ['a'], Namespace.NamespaceExistsValue)],
    calls := [] }

/-- An in-memory store with the active namespace `a` and its data key `k`. -/
def exampleActive : World MemStore :=
  { db := [(Namespace.generateMetaKey exampleConfig ['a'], Namespace.NamespaceExistsValue),
      (Namespace.generateNamespaceKey exampleConfig ['a'] ['k'], ['o', 'l', 'd'])],
    calls := [] }

/-- An in-memory store where the namespace `a` is marked `DELETING` and its data key
`k` is still there. -/
def exampleDeleting : World MemStore :=
  { db := [(Namespace.generateMetaKey exampleConfig ['a'], Namespace.NamespaceDeletingValue),
      (Namespace.generateNamespaceKey exampleConfig ['a'] ['k'], ['o', 'l', 'd'])],
    calls := [] }

end GravelDB

/-! ## Lemmas on keys and on the in-memory store -/

namespace GravelDB

open Namespace

theorem generateMetaKey_ne_generateNamespaceKey (c : Config) (h : c.Apart)
    (name ns key : Bytes) : generateMetaKey c name ≠ generateNamespaceKey c ns key := by
  intro heq
  have h1 : (c.MetaPrefix ++ ['.']) <+: generateMetaKey c name :=
    List.prefix_append _ _
  have h2 : (c.NamespacePrefix ++ ['.']) <+: generateNamespaceKey c ns key := by
    unfold generateNamespaceKey
    simp only [List.append_assoc]
    exact ⟨ns ++ (['.'] ++ key), by simp⟩
  rw [heq] at h1
  rcases List.prefix_or_prefix_of_prefix h1 h2 with h3 | h3
  · exact h.1 h3
  · exact h.2 h3

theorem MemStore.Get_put_same (s : MemStore) (key value : Bytes) :
    MemStore.Get (MemStore.put s key value) key = (some value, none) := by
  induction s with
  | nil => simp [MemStore.put, MemStore.Get]
  | cons e rest ih =>
    obtain ⟨k, v⟩ := e
    by_cases hk : k = key
    · simp [MemStore.put, MemStore.Get, hk]
    · by_cases hlt : MemStore.lt key k = true
      · simp [MemStore.put, MemStore.Get, hk, hlt]
      · simp [MemStore.put, MemStore.Get, hk, hlt, ih]

theorem MemStore.Get_put_other (s : MemStore) (key value k : Bytes) (hne : k ≠ key) :
    MemStore.Get (MemStore.put s key value) k = MemStore.Get s k := by
  have hne2 : ¬ key = k := fun h => hne h.symm
  induction s with
  | nil => simp [MemStore.put, MemStore.Get, hne2]
  | cons e rest ih =>
    obtain ⟨k0, v0⟩ := e
    by_cases hk : k0 = key
    · subst hk
      simp [MemStore.put, MemStore.Get, hne2]
    · by_cases hlt : MemStore.lt key k0 = true
      · simp [MemStore.put, MemStore.Get, hk, hlt, hne2]
      · simp [MemStore.put, MemStore.Get, hk, hlt, ih]

theorem MemStore.Get_remove_same (s : MemStore) (key : Bytes) :
    MemStore.Get (MemStore.remove s key) key = (none, some kv.ErrKeyNotFound) := by
  induction s with
  | nil => simp [MemStore.remove, MemStore.Get]
  | cons e rest ih =>
    obtain ⟨k, v⟩ := e
    by_cases hk : k = key
    · simp [MemStore.remove, hk, ih]
    · simp [MemStore.remove, hk, MemStore.Get, ih]

theorem MemStore.Get_remove_other (s : MemStore) (key k : Bytes) (hne : k ≠ key) :
    MemStore.Get (MemStore.remove s key) k = MemStore.Get s k := by
  induction s with
  | nil => simp [MemStore.remove, MemStore.Get]
  | cons e rest ih =>
    obtain ⟨k0, v0⟩ := e
    by_cases hk : k0 = key
    · subst hk
      have : ¬ k0 = k := fun h => hne h.symm
      simp [MemStore.remove, MemStore.Get, this, ih]
    · simp [MemStore.remove, hk, MemStore.Get, ih]

theorem memKV_readAfterWrite : kv.ReadAfterWrite memKV := by
  intro s key value _
  exact MemStore.Get_put_same s key value

theorem memKV_setFrame : kv.SetFrame memKV := by
  intro s key value k _ hne
  exact MemStore.Get_put_other s key value k hne

theorem memKV_readAfterDelete : kv.ReadAfterDelete memKV := by
  intro s key _
  exact ⟨kv.ErrKeyNotFound, by decide, MemStore.Get_remove_same s key⟩

theorem memKV_deleteFrame : kv.DeleteFrame memKV := by
  intro s key k _ hne
  exact MemStore.Get_remove_other s key k hne

theorem exampleConfig_apart : exampleConfig.Apart := by
  unfold Config.Apart
  decide

theorem bytes.Equal_none_exists :
    bytes.Equal none (some NamespaceExistsValue) = false := by decide

theorem bytes.Equal_none_deleting :
    bytes.Equal none (some NamespaceDeletingValue) = false := by decide

theorem bytes.Equal_deleting_exists :
    bytes.Equal (some NamespaceDeletingValue) (some NamespaceExistsValue) = false := by
  decide

theorem bytes.Equal_exists_deleting :
    bytes.Equal (some NamespaceExistsValue) (some NamespaceDeletingValue) = false := by
  decide

theorem bytes.Equal_self (v : Bytes) : bytes.Equal (some v) (some v) = true := by
  simp [bytes.Equal]

theorem CreateNamespace_success {σ : Type} (c : Config) (db : kv.ReadWriter σ)
    (w : World σ) (name : Bytes) (h : (CreateNamespace c db w name).1 = none) :
    (db.Set w.db (generateMetaKey c name) NamespaceExistsValue).1 = none ∧
    (CreateNamespace c db w name).2 =
      { db := (db.Set w.db (generateMetaKey c name) NamespaceExistsValue).2,
        calls := w.calls ++ [Call.Get (generateMetaKey c name)] ++
          [Call.Set (generateMetaKey c name) NamespaceExistsValue] } := by
  unfold CreateNamespace dbSet dbGet at h ⊢
  dsimp only at h ⊢
  rcases hg : db.Get w.db (generateMetaKey c name) with ⟨v, e⟩
  rw [hg] at h
  dsimp only at h ⊢
  split at h
  · rename_i hf
    cases e with
    | none => simp at hf
    | some e => simp at h
  · rename_i hf
    rw [if_neg hf]
    split at h
    · simp at h
    · rename_i h1
      rw [if_neg h1]
      split at h
      · simp at h
      · rename_i h2
        rw [if_neg h2]
        split at h
        · simp at h
        · rename_i hs
          simp [hs]

theorem DeleteNamespace_success {σ : Type} (c : Config) (db : kv.ReadWriter σ)
    (w : World σ) (name : Bytes) (h : (DeleteNamespace c db w name).1 = none) :
    (db.Set w.db (generateMetaKey c name) NamespaceDeletingValue).1 = none ∧
    (DeleteNamespace c db w name).2 =
      { db := (db.Set w.db (generateMetaKey c name) NamespaceDeletingValue).2,
        calls := w.calls ++ [Call.Get (generateMetaKey c name)] ++
          [Call.Set (generateMetaKey c name) NamespaceDeletingValue] } := by
  unfold DeleteNamespace dbSet dbGet at h ⊢
  dsimp only at h ⊢
  rcases hg : db.Get w.db (generateMetaKey c name) with ⟨v, e⟩
  rw [hg] at h
  dsimp only at h ⊢
  cases e with
  | some e =>
    dsimp only at h
    split at h <;> simp at h
  | none =>
    dsimp only at h ⊢
    split at h
    · simp at h
    · rename_i h2
      rw [if_neg h2]
      split at h
      · simp at h
      · rename_i hs
        simp [hs]

theorem IsActive_of_value {σ : Type} (c : Config) (db : kv.ReadWriter σ) (w : World σ)
    (name : Bytes) (v : Option Bytes)
    (hg : db.Get w.db (generateMetaKey c name) = (v, none)) :
    IsActive c db w name =
      ((bytes.Equal v (some NamespaceExistsValue), none),
        { db := w.db, calls := w.calls ++ [Call.Get (generateMetaKey c name)] }) := by
  simp [IsActive, dbGet, hg]

theorem GetKey_active_value {σ : Type} (c : Config) (db : kv.ReadWriter σ) (w : World σ)
    (ns k : Bytes) (x : Option Bytes)
    (hActive : db.Get w.db (generateMetaKey c ns) = (some NamespaceExistsValue, none))
    (hData : db.Get w.db (generateNamespaceKey c ns k) = (x, none)) :
    GetKey c db w ns k =
      ((x, none),
        { db := w.db,
          calls := w.calls ++ [Call.Get (generateMetaKey c ns)] ++
            [Call.Get (generateNamespaceKey c ns k)] }) := by
  have ha := IsActive_of_value c db w ns _ hActive
  rw [bytes.Equal_self] at ha
  simp [GetKey, ha, dbGet, hData]

theorem GetKey_active_error {σ : Type} (c : Config) (db : kv.ReadWriter σ) (w : World σ)
    (ns k : Bytes) (x : Option Bytes) (e : Error)
    (hActive : db.Get w.db (generateMetaKey c ns) = (some NamespaceExistsValue, none))
    (hData : db.Get w.db (generateNamespaceKey c ns k) = (x, some e)) :
    GetKey c db w ns k =
      ((none, some e),
        { db := w.db,
          calls := w.calls ++ [Call.Get (generateMetaKey c ns)] ++
            [Call.Get (generateNamespaceKey c ns k)] }) := by
  have ha := IsActive_of_value c db w ns _ hActive
  rw [bytes.Equal_self] at ha
  simp [GetKey, ha, dbGet, hData]

theorem DeleteKey_active_ok {σ : Type} (c : Config) (db : kv.ReadWriter σ) (w : World σ)
    (ns k : Bytes)
    (hActive : db.Get w.db (generateMetaKey c ns) = (some NamespaceExistsValue, none))
    (hDel : (db.Delete w.db (generateNamespaceKey c ns k)).1 = none) :
    DeleteKey c db w ns k =
      (none,
        { db := (db.Delete w.db (generateNamespaceKey c ns k)).2,
          calls := w.calls ++ [Call.Get (generateMetaKey c ns)] ++
            [Call.Delete (generateNamespaceKey c ns k)] }) := by
  have ha := IsActive_of_value c db w ns _ hActive
  rw [bytes.Equal_self] at ha
  simp [DeleteKey, ha, dbDelete, hDel]

theorem MemStore.remove_of_absent (s : MemStore) (key : Bytes)
    (h : kv.Absent memKV s key) : MemStore.remove s key = s := by
  obtain ⟨e, _, hg⟩ := h
  induction s with
  | nil => rfl
  | cons x rest ih =>
    obtain ⟨k, v⟩ := x
    by_cases hk : k = key
    · simp [memKV, MemStore.Get, hk] at hg
    · simp only [memKV, MemStore.Get, hk, if_false] at hg
      simp only [MemStore.remove, hk, if_false]
      rw [ih hg]

theorem memKV_deleteAbsent : kv.DeleteAbsent memKV := by
  intro s key h
  show (none, MemStore.remove s key) = (none, s)
  rw [MemStore.remove_of_absent s key h]

theorem memKV_frame : kv.Frame memKV :=
  ⟨fun s key value k hne => MemStore.Get_put_other s key value k hne,
    fun s key k hne => MemStore.Get_remove_other s key k hne⟩

theorem generateMetaKey_injective (c : Config) (a b : Bytes)
    (h : generateMetaKey c a = generateMetaKey c b) : a = b := by
  unfold generateMetaKey at h
  exact List.append_cancel_left h

theorem List.eq_of_append_sep {α : Type} (sep : α) :
    ∀ (a b x y : List α), sep ∉ a → sep ∉ b → a ++ sep :: x = b ++ sep :: y →
      a = b ∧ x = y
  | [], [], x, y, _, _, h => by simpa using h
  | [], b0 :: b, x, y, _, hb, h => by
      simp only [List.nil_append, List.cons_append, List.cons.injEq] at h
      exact absurd (h.1 ▸ List.mem_cons_self _ _) hb
  | a0 :: a, [], x, y, ha, _, h => by
      simp only [List.nil_append, List.cons_append, List.cons.injEq] at h
      exact absurd (h.1 ▸ List.mem_cons_self _ _) ha
  | a0 :: a, b0 :: b, x, y, ha, hb, h => by
      simp only [List.cons_append, List.cons.injEq] at h
      have ih := List.eq_of_append_sep sep a b x y
        (fun hm => ha (List.mem_cons_of_mem _ hm))
        (fun hm => hb (List.mem_cons_of_mem _ hm)) h.2
      exact ⟨by rw [h.1, ih.1], ih.2⟩

theorem CreateNamespace_db {σ : Type} (c : Config) (db : kv.ReadWriter σ) (w : World σ)
    (name : Bytes) :
    (CreateNamespace c db w name).2.db = w.db ∨
    (CreateNamespace c db w name).2.db =
      (db.Set w.db (generateMetaKey c name) NamespaceExistsValue).2 := by
  unfold CreateNamespace dbSet dbGet
  dsimp only
  split
  · exact Or.inl rfl
  · split
    · exact Or.inl rfl
    · split
      · exact Or.inl rfl
      · split <;> exact Or.inr rfl

theorem DeleteNamespace_db {σ : Type} (c : Config) (db : kv.ReadWriter σ) (w : World σ)
    (name : Bytes) :
    (DeleteNamespace c db w name).2.db = w.db ∨
    (DeleteNamespace c db w name).2.db =
      (db.Set w.db (generateMetaKey c name) NamespaceDeletingValue).2 := by
  unfold DeleteNamespace dbSet dbGet
  dsimp only
  split
  · split <;> exact Or.inl rfl
  · split
    · exact Or.inl rfl
    · split <;> exact Or.inr rfl

theorem IsActive_db {σ : Type} (c : Config) (db : kv.ReadWriter σ) (w : World σ)
    (name : Bytes) : (IsActive c db w name).2.db = w.db := by
  unfold IsActive dbGet
  dsimp only
  split
  · split <;> rfl
  · rfl

theorem GetKey_db {σ : Type} (c : Config) (db : kv.ReadWriter σ) (w : World σ)
    (ns key : Bytes) : (GetKey c db w ns key).2.db = w.db := by
  have ha := IsActive_db c db w ns
  unfold GetKey dbGet
  dsimp only
  split
  · exact ha
  · split
    · exact ha
    · split <;> exact ha

theorem SetKey_db {σ : Type} (c : Config) (db : kv.ReadWriter σ) (w : World σ)
    (ns key value : Bytes) :
    (SetKey c db w ns key value).2.db = w.db ∨
    (SetKey c db w ns key value).2.db =
      (db.Set w.db (generateNamespaceKey c ns key) value).2 := by
  have ha := IsActive_db c db w ns
  unfold SetKey dbSet
  dsimp only
  split
  · exact Or.inl ha
  · split
    · exact Or.inl ha
    · split <;> exact Or.inr (by rw [ha])

theorem DeleteKey_db {σ : Type} (c : Config) (db : kv.ReadWriter σ) (w : World σ)
    (ns key : Bytes) :
    (DeleteKey c db w ns key).2.db = w.db ∨
    (DeleteKey c db w ns key).2.db =
      (db.Delete w.db (generateNamespaceKey c ns key)).2 := by
  have ha := IsActive_db c db w ns
  unfold DeleteKey dbDelete
  dsimp only
  split
  · exact Or.inl ha
  · split
    · exact Or.inl ha
    · split <;> exact Or.inr (by rw [ha])

theorem tombstone_kept_by_op {σ : Type} (c : Config) (db : kv.ReadWriter σ)
    (hApart : c.Apart) (hFrame : kv.Frame db) (n : Bytes) (w : World σ) (op : Op)
    (hDel : db.Get w.db (generateMetaKey c n) = (some NamespaceDeletingValue, none)) :
    db.Get (Op.run c db w op).db (generateMetaKey c n) =
      (some NamespaceDeletingValue, none) := by
  cases op with
  | CreateNamespace name =>
    show db.Get (CreateNamespace c db w name).2.db _ = _
    by_cases hn : name = n
    · subst hn
      have h : (CreateNamespace c db w name).2.db = w.db := by
        simp [CreateNamespace, dbGet, hDel, bytes.Equal_self, bytes.Equal_deleting_exists]
      rw [h]; exact hDel
    · rcases CreateNamespace_db c db w name with h | h
      · rw [h]; exact hDel
      · rw [h, hFrame.1 _ _ _ _
          (fun he => hn (generateMetaKey_injective c n name he).symm)]
        exact hDel
  | DeleteNamespace name =>
    show db.Get (DeleteNamespace c db w name).2.db _ = _
    by_cases hn : name = n
    · subst hn
      have h : (DeleteNamespace c db w name).2.db = w.db := by
        simp [DeleteNamespace, dbGet, hDel, bytes.Equal_self]
      rw [h]; exact hDel
    · rcases DeleteNamespace_db c db w name with h | h
      · rw [h]; exact hDel
      · rw [h, hFrame.1 _ _ _ _
          (fun he => hn (generateMetaKey_injective c n name he).symm)]
        exact hDel
  | GetKey ns key =>
    show db.Get (GetKey c db w ns key).2.db _ = _
    rw [GetKey_db]; exact hDel
  | SetKey ns key value =>
    show db.Get (SetKey c db w ns key value).2.db _ = _
    rcases SetKey_db c db w ns key value with h | h
    · rw [h]; exact hDel
    · rw [h, hFrame.1 _ _ _ _ (generateMetaKey_ne_generateNamespaceKey c hApart n ns key)]
      exact hDel
  | DeleteKey ns key =>
    show db.Get (DeleteKey c db w ns key).2.db _ = _
    rcases DeleteKey_db c db w ns key with h | h
    · rw [h]; exact hDel
    · rw [h, hFrame.2 _ _ _ (generateMetaKey_ne_generateNamespaceKey c hApart n ns key)]
      exact hDel

theorem strings.TrimPrefix_append (p n : Bytes) : strings.TrimPrefix (p ++ n) p = n := by
  unfold strings.TrimPrefix
  have h : p.isPrefixOf (p ++ n) = true := by
    rw [List.isPrefixOf_iff_prefix]
    exact List.prefix_append p n
  rw [if_pos h, List.drop_left]

theorem MemStore.lt_under_lower : ∀ (lower key : Bytes), lower <+: key →
    MemStore.lt key lower = false
  | [], [], _ => rfl
  | [], _ :: _, _ => rfl
  | a :: l, [], h => by simp at h
  | a :: l, b :: key, h => by
      rw [List.cons_prefix_cons] at h
      obtain ⟨hab, hl⟩ := h
      subst hab
      simp only [MemStore.lt, lt_self_iff_false, if_false]
      exact MemStore.lt_under_lower l key hl

theorem MemStore.Get_cases (s : MemStore) (key : Bytes) :
    MemStore.Get s key = (none, some kv.ErrKeyNotFound) ∨
    ∃ v, MemStore.Get s key = (some v, none) ∧ (key, v) ∈ s := by
  induction s with
  | nil => exact Or.inl rfl
  | cons x rest ih =>
    obtain ⟨k, v⟩ := x
    by_cases hk : k = key
    · subst hk
      exact Or.inr ⟨v, by simp [MemStore.Get], List.mem_cons_self _ _⟩
    · simp only [MemStore.Get, hk, if_false]
      rcases ih with h | ⟨v0, h, hm⟩
      · exact Or.inl h
      · exact Or.inr ⟨v0, h, List.mem_cons_of_mem _ hm⟩

theorem memKV_iterCovers : kv.IterCovers memKV := by
  intro s lower key hp
  rcases MemStore.Get_cases s key with h | ⟨v, h, hm⟩
  · exact Or.inl ⟨kv.ErrKeyNotFound, by decide, h⟩
  · refine Or.inr ⟨v, h, ?_⟩
    show (key, v) ∈ MemStore.NewIterator s lower none
    unfold MemStore.NewIterator
    rw [List.mem_filter]
    exact ⟨hm, by simp [MemStore.lt_under_lower lower key hp]⟩

theorem memService_allOrNothing : kv.AllOrNothing memService := by
  intro s fn
  rfl

theorem faultyService_allOrNothing (bad : Bytes) : kv.AllOrNothing (faultyService bad) := by
  intro s fn
  rfl

theorem kv.Absent_after_Delete {σ : Type} (db : kv.ReadWriter σ)
    (hRAD : kv.ReadAfterDelete db) (hFrame : kv.DeleteFrame db) (s : σ) (key k : Bytes)
    (hOk : (db.Delete s key).1 = none) (h : kv.Absent db s k ∨ k = key) :
    kv.Absent db (db.Delete s key).2 k := by
  by_cases hk : k = key
  · subst hk
    exact hRAD s k hOk
  · rcases h with h | h
    · unfold kv.Absent
      rw [hFrame s key k hOk hk]
      exact h
    · exact absurd h hk

theorem wipeNamespaceLoop_absent {σ : Type} (rw : kv.ReadWriter σ)
    (hRAD : kv.ReadAfterDelete rw) (hFrame : kv.DeleteFrame rw) :
    ∀ (entries : List (Bytes × Bytes)) (w : World σ),
      (wipeNamespaceLoop rw w entries).1 = none →
      ∀ k, (kv.Absent rw w.db k ∨ k ∈ entries.map Prod.fst) →
        kv.Absent rw (wipeNamespaceLoop rw w entries).2.db k
  | [], w, _, k, h => by
      rcases h with h | h
      · exact h
      · simp at h
  | e :: rest, w, hOk, k, h => by
      unfold wipeNamespaceLoop at hOk ⊢
      cases hd : (dbDelete rw w e.1).1 with
      | some err => rw [hd] at hOk; simp at hOk
      | none =>
        rw [hd] at hOk
        dsimp only at hOk ⊢
        apply wipeNamespaceLoop_absent rw hRAD hFrame rest _ hOk k
        have hd2 : (rw.Delete w.db e.1).1 = none := hd
        rcases h with h | h
        · exact Or.inl (kv.Absent_after_Delete rw hRAD hFrame w.db e.1 k hd2 (Or.inl h))
        · rw [List.map_cons, List.mem_cons] at h
          rcases h with h | h
          · exact Or.inl (kv.Absent_after_Delete rw hRAD hFrame w.db e.1 k hd2 (Or.inr h))
          · exact Or.inr h

theorem wipeNamespace_absent {σ : Type} (c : Config) (rw : kv.ReadWriter σ)
    (hRAD : kv.ReadAfterDelete rw) (hFrame : kv.DeleteFrame rw) (hIter : kv.IterCovers rw)
    (w : World σ) (n : Bytes) (hOk : (wipeNamespace c rw w n).1 = none) (k : Bytes)
    (h : kv.Absent rw w.db k ∨ generateNamespaceKey c n [] <+: k ∨
      k = generateMetaKey c n) :
    kv.Absent rw (wipeNamespace c rw w n).2.db k := by
  unfold wipeNamespace at hOk ⊢
  dsimp only at hOk ⊢
  cases hl : (wipeNamespaceLoop rw (dbNewIterator rw.toReader w
      (generateNamespaceKey c n []) none).2
      (dbNewIterator rw.toReader w (generateNamespaceKey c n []) none).1).1 with
  | some err => rw [hl] at hOk; simp at hOk
  | none =>
    rw [hl] at hOk
    dsimp only at hOk ⊢
    have hloop := wipeNamespaceLoop_absent rw hRAD hFrame _ _ hl
    cases hd : (dbDelete rw (wipeNamespaceLoop rw (dbNewIterator rw.toReader w
        (generateNamespaceKey c n []) none).2
        (dbNewIterator rw.toReader w (generateNamespaceKey c n []) none).1).2
        (generateMetaKey c n)).1 with
    | some err => rw [hd] at hOk; simp at hOk
    | none =>
      dsimp only
      refine kv.Absent_after_Delete rw hRAD hFrame _ _ k hd ?_
      rcases h with h | h | h
      · exact Or.inl (hloop k (Or.inl h))
      · rcases hIter w.db _ k h with ha | ⟨v, _, hm⟩
        · exact Or.inl (hloop k (Or.inl ha))
        · exact Or.inl (hloop k (Or.inr (List.mem_map_of_mem Prod.fst hm)))
      · exact Or.inr h

theorem garbageCollectNamespaces_absent {σ : Type} (c : Config) (db : kv.Service σ)
    (hRAD : kv.ReadAfterDelete db.toReadWriter) (hFrame : kv.DeleteFrame db.toReadWriter)
    (hIter : kv.IterCovers db.toReadWriter) (hAtomic : kv.AllOrNothing db) :
    ∀ (names : List Bytes) (w : World σ),
      (garbageCollectNamespaces c db w names).1 = none →
      ∀ k, (kv.Absent db.toReadWriter w.db k ∨
          ∃ n, n ∈ names ∧ (generateNamespaceKey c n [] <+: k ∨ k = generateMetaKey c n)) →
        kv.Absent db.toReadWriter (garbageCollectNamespaces c db w names).2.db k
  | [], w, _, k, h => by
      rcases h with h | ⟨n, hn, _⟩
      · exact h
      · simp at hn
  | name :: rest, w, hOk, k, h => by
      unfold garbageCollectNamespaces at hOk ⊢
      have hb : db.RWBatch w.db (wipeBatch c name) = _ := hAtomic w.db (wipeBatch c name)
      cases hw : (wipeNamespace c db.toReadWriter { db := w.db, calls := [] } name).1 with
      | some err =>
        have h1 : (dbRWBatch db w (wipeBatch c name)).1 = some err := by
          show (db.RWBatch w.db (wipeBatch c name)).1 = some err
          rw [hb]
          simp [wipeBatch, hw]
        rw [h1] at hOk
        simp at hOk
      | none =>
        have h1 : (dbRWBatch db w (wipeBatch c name)).1 = none := by
          show (db.RWBatch w.db (wipeBatch c name)).1 = none
          rw [hb]
          simp [wipeBatch, hw]
        have h2 : (dbRWBatch db w (wipeBatch c name)).2.db =
            (wipeNamespace c db.toReadWriter { db := w.db, calls := [] } name).2.db := by
          show (db.RWBatch w.db (wipeBatch c name)).2 = _
          rw [hb]
          simp [wipeBatch, hw]
        rw [h1] at hOk ⊢
        dsimp only at hOk ⊢
        apply garbageCollectNamespaces_absent c db hRAD hFrame hIter hAtomic rest _ hOk k
        rw [h2]
        have hwipe := wipeNamespace_absent c db.toReadWriter hRAD hFrame hIter
          { db := w.db, calls := [] } name hw k
        rcases h with h | ⟨n, hn, hk⟩
        · exact Or.inl (hwipe (Or.inl h))
        · rw [List.mem_cons] at hn
          rcases hn with hn | hn
          · subst hn
            exact Or.inl (hwipe (Or.inr hk))
          · exact Or.inr ⟨n, hn, hk⟩

theorem mem_deletedNamespaces {σ : Type} (c : Config) (db : kv.ReadWriter σ)
    (hIter : kv.IterCovers db) (w : World σ) (n : Bytes)
    (hDel : db.Get w.db (generateMetaKey c n) = (some NamespaceDeletingValue, none)) :
    n ∈ (deletedNamespaces c db.toReader w).1 := by
  have hp : generateMetaKey c [] <+: generateMetaKey c n := by
    unfold generateMetaKey
    simp only [List.append_nil]
    exact List.prefix_append _ _
  rcases hIter w.db _ _ hp with ⟨e, _, ha⟩ | ⟨v, hv, hm⟩
  · rw [hDel] at ha
    simp at ha
  · rw [hDel] at hv
    have hv2 : v = NamespaceDeletingValue := by
      simp only [Prod.mk.injEq, Option.some.injEq, and_true] at hv
      exact hv.symm
    subst hv2
    unfold deletedNamespaces dbNewIterator
    dsimp only
    rw [List.mem_filterMap]
    refine ⟨_, hm, ?_⟩
    simp only [bytes.Equal_self, Bool.not_true, Bool.false_eq_true, if_false]
    unfold generateMetaKey
    rw [strings.TrimPrefix_append]

theorem GarbageCollectionTick_absent {σ : Type} (c : Config) (db : kv.Service σ)
    (w : World σ) (n : Bytes)
    (hRAD : kv.ReadAfterDelete db.toReadWriter) (hFrame : kv.DeleteFrame db.toReadWriter)
    (hIter : kv.IterCovers db.toReadWriter) (hAtomic : kv.AllOrNothing db)
    (hDel : db.Get w.db (generateMetaKey c n) = (some NamespaceDeletingValue, none))
    (hOk : (GarbageCollectionTick c db w).1 = none) :
    kv.Absent db.toReadWriter (GarbageCollectionTick c db w).2.db (generateMetaKey c n) ∧
    ∀ k, generateNamespaceKey c n [] <+: k →
      kv.Absent db.toReadWriter (GarbageCollectionTick c db w).2.db k := by
  have hmem := mem_deletedNamespaces c db.toReadWriter hIter w n hDel
  have hne : ¬ (deletedNamespaces c db.toReader w).1.length = 0 := by
    intro h0
    rw [List.length_eq_zero] at h0
    rw [h0] at hmem
    simp at hmem
  unfold GarbageCollectionTick at hOk ⊢
  dsimp only at hOk ⊢
  rw [if_neg hne] at hOk ⊢
  have hgc := garbageCollectNamespaces_absent c db hRAD hFrame hIter hAtomic _ _ hOk
  exact ⟨hgc _ (Or.inr ⟨n, hmem, Or.inr rfl⟩),
    fun k hk => hgc k (Or.inr ⟨n, hmem, Or.inl hk⟩)⟩

theorem garbageCollectNamespaces_cons {σ : Type} (c : Config) (db : kv.Service σ)
    (w : World σ) (name : Bytes) (rest : List Bytes) :
    garbageCollectNamespaces c db w (name :: rest) =
      match (dbRWBatch db w (wipeBatch c name)).1 with
      | some err =>
          (some (Error.WithMessage err (namespaceMessage name)),
            (dbRWBatch db w (wipeBatch c name)).2)
      | none =>
          garbageCollectNamespaces c db (dbRWBatch db w (wipeBatch c name)).2 rest := by
  rw [garbageCollectNamespaces]

theorem garbageCollectNamespaces_append {σ : Type} (c : Config) (db : kv.Service σ) :
    ∀ (pre : List Bytes) (w : World σ) (l : List Bytes),
      (garbageCollectNamespaces c db w pre).1 = none →
      garbageCollectNamespaces c db w (pre ++ l) =
        garbageCollectNamespaces c db (garbageCollectNamespaces c db w pre).2 l
  | [], w, l, _ => rfl
  | name :: rest, w, l, h => by
      have hc1 := garbageCollectNamespaces_cons c db w name rest
      have hc2 := garbageCollectNamespaces_cons c db w name (rest ++ l)
      cases hb : (dbRWBatch db w (wipeBatch c name)).1 with
      | some err => rw [hc1, hb] at h; simp at h
      | none =>
        rw [hb] at hc1 hc2
        dsimp only at hc1 hc2
        rw [hc1] at h
        rw [List.cons_append, hc2, hc1]
        exact garbageCollectNamespaces_append c db rest _ l h

theorem garbageCollectNamespaces_calls {σ : Type} (c : Config) (db : kv.Service σ) :
    ∀ (names : List Bytes) (w : World σ),
      (garbageCollectNamespaces c db w names).1 = none →
      (garbageCollectNamespaces c db w names).2.calls =
        w.calls ++ List.replicate names.length Call.RWBatch
  | [], w, _ => by simp [garbageCollectNamespaces]
  | name :: rest, w, h => by
      unfold garbageCollectNamespaces at h ⊢
      cases hb : (dbRWBatch db w (wipeBatch c name)).1 with
      | some err => rw [hb] at h; simp at h
      | none =>
        rw [hb] at h
        dsimp only at h ⊢
        rw [garbageCollectNamespaces_calls c db rest _ h]
        simp [dbRWBatch, List.replicate_succ]

theorem wipeNamespaceLoop_calls {σ : Type} (rw : kv.ReadWriter σ) :
    ∀ (entries : List (Bytes × Bytes)) (w : World σ),
      ∃ j, (wipeNamespaceLoop rw w entries).2.calls =
        w.calls ++ (entries.take j).map (fun x => Call.Delete x.1)
  | [], w => ⟨0, by simp [wipeNamespaceLoop]⟩
  | e :: rest, w => by
      unfold wipeNamespaceLoop
      cases hd : (dbDelete rw w e.1).1 with
      | some err => exact ⟨1, by simp [dbDelete]⟩
      | none =>
        obtain ⟨j, hj⟩ := wipeNamespaceLoop_calls rw rest (dbDelete rw w e.1).2
        exact ⟨j + 1, by rw [hj]; simp [dbDelete]⟩

theorem wipeNamespaceLoop_stops {σ : Type} (rw : kv.ReadWriter σ) (bad : Bytes × Bytes)
    (later : List (Bytes × Bytes)) (e : Error) :
    ∀ (done : List (Bytes × Bytes)) (w : World σ),
      kv.DeletesSucceed rw w.db (done.map Prod.fst) →
      (rw.Delete (kv.deleteAll rw w.db (done.map Prod.fst)) bad.1).1 = some e →
      wipeNamespaceLoop rw w (done ++ bad :: later) =
        (some e,
          { db := (rw.Delete (kv.deleteAll rw w.db (done.map Prod.fst)) bad.1).2,
            calls := w.calls ++
              (done.map (fun x => Call.Delete x.1) ++ [Call.Delete bad.1]) })
  | [], w, _, hBad => by
      have hb : (dbDelete rw w bad.1).1 = some e := hBad
      show wipeNamespaceLoop rw w (bad :: later) = _
      rw [wipeNamespaceLoop, hb]
      rfl
  | d :: ds, w, hDone, hBad => by
      obtain ⟨hd, hrest⟩ := hDone
      have hd2 : (dbDelete rw w d.1).1 = none := hd
      show wipeNamespaceLoop rw w (d :: (ds ++ bad :: later)) = _
      rw [wipeNamespaceLoop, hd2]
      dsimp only
      rw [wipeNamespaceLoop_stops rw bad later e ds (dbDelete rw w d.1).2 hrest hBad]
      simp [dbDelete, kv.deleteAll]

theorem wipeNamespace_stops {σ : Type} (c : Config) (rw : kv.ReadWriter σ) (s : σ)
    (n : Bytes) (done : List (Bytes × Bytes)) (bad : Bytes × Bytes)
    (later : List (Bytes × Bytes)) (e : Error)
    (hIter : rw.NewIterator s (generateNamespaceKey c n []) none = done ++ bad :: later)
    (hDone : kv.DeletesSucceed rw s (done.map Prod.fst))
    (hBad : (rw.Delete (kv.deleteAll rw s (done.map Prod.fst)) bad.1).1 = some e) :
    wipeNamespace c rw { db := s, calls := [] } n =
      (some e,
        { db := (rw.Delete (kv.deleteAll rw s (done.map Prod.fst)) bad.1).2,
          calls := Call.NewIterator (generateNamespaceKey c n []) none ::
            (done.map (fun x => Call.Delete x.1) ++ [Call.Delete bad.1]) }) := by
  have hloop := wipeNamespaceLoop_stops rw bad later e done
    { db := s, calls := [Call.NewIterator (generateNamespaceKey c n []) none] } hDone hBad
  unfold wipeNamespace dbNewIterator
  dsimp only [List.nil_append]
  rw [hIter, hloop]
  rfl

theorem garbageCollectNamespaces_failed_batch {σ : Type} (c : Config) (db : kv.Service σ)
    (hAtomic : kv.AllOrNothing db) (w : World σ) (n : Bytes) (rest : List Bytes) (e : Error)
    (hw : (wipeNamespace c db.toReadWriter { db := w.db, calls := [] } n).1 = some e) :
    garbageCollectNamespaces c db w (n :: rest) =
      (some (Error.WithMessage e (namespaceMessage n)),
        { db := w.db, calls := w.calls ++ [Call.RWBatch] }) := by
  have hb : db.RWBatch w.db (wipeBatch c n) = (some e, w.db) := by
    rw [hAtomic w.db (wipeBatch c n)]
    simp [wipeBatch, hw]
  unfold garbageCollectNamespaces dbRWBatch
  simp [hb]

theorem generateNamespaceKey_starts (c : Config) (n k : Bytes) :
    generateNamespaceKey c n [] <+: generateNamespaceKey c n k := by
  unfold generateNamespaceKey
  simp only [List.append_nil]
  exact List.prefix_append _ _

theorem CreateNamespace_of_absent {σ : Type} (c : Config) (db : kv.ReadWriter σ)
    (w : World σ) (name : Bytes)
    (hAbsent : kv.Absent db w.db (generateMetaKey c name))
    (hSet : (db.Set w.db (generateMetaKey c name) NamespaceExistsValue).1 = none) :
    (CreateNamespace c db w name).1 = none ∧
    (CreateNamespace c db w name).2.db =
      (db.Set w.db (generateMetaKey c name) NamespaceExistsValue).2 := by
  obtain ⟨e, he, hg⟩ := hAbsent
  have hres : (CreateNamespace c db w name).1 = none := by
    simp [CreateNamespace, dbGet, dbSet, hg, he, hSet, bytes.Equal_none_exists,
      bytes.Equal_none_deleting]
  exact ⟨hres, by rw [(CreateNamespace_success c db w name hres).2]⟩

theorem Config.Apart.not_meta_range (c : Config) (h : c.Apart) (ns key : Bytes) :
    ¬ (c.MetaPrefix ++ ['.']) <+: generateNamespaceKey c ns key := by
  intro h1
  have h2 : (c.NamespacePrefix ++ ['.']) <+: generateNamespaceKey c ns key := by
    unfold generateNamespaceKey
    simp only [List.append_assoc]
    exact ⟨ns ++ (['.'] ++ key), by simp⟩
  rcases List.prefix_or_prefix_of_prefix h1 h2 with h3 | h3
  · exact h.1 h3
  · exact h.2 h3

theorem Config.Apart.not_data_range (c : Config) (h : c.Apart) (name : Bytes) :
    ¬ (c.NamespacePrefix ++ ['.']) <+: generateMetaKey c name := by
  intro h1
  have h2 : (c.MetaPrefix ++ ['.']) <+: generateMetaKey c name := List.prefix_append _ _
  rcases List.prefix_or_prefix_of_prefix h2 h1 with h3 | h3
  · exact h.1 h3
  · exact h.2 h3

theorem IsActive_of_error {σ : Type} (c : Config) (db : kv.ReadWriter σ) (w : World σ)
    (name : Bytes) (v : Option Bytes) (e : Error)
    (hg : db.Get w.db (generateMetaKey c name) = (v, some e))
    (he : errors.Is e kv.ErrKeyNotFound = false) :
    IsActive c db w name =
      ((false, some e),
        { db := w.db, calls := w.calls ++ [Call.Get (generateMetaKey c name)] }) := by
  simp [IsActive, dbGet, hg, he]

theorem GetKey_congr {σ : Type} (c : Config) (db : kv.ReadWriter σ) (w w2 : World σ)
    (ns key : Bytes)
    (hMeta : db.Get w2.db (generateMetaKey c ns) = db.Get w.db (generateMetaKey c ns))
    (hData : db.Get w2.db (generateNamespaceKey c ns key) =
      db.Get w.db (generateNamespaceKey c ns key)) :
    (GetKey c db w2 ns key).1 = (GetKey c db w ns key).1 := by
  have ha : (IsActive c db w2 ns).1 = (IsActive c db w ns).1 := by
    unfold IsActive dbGet
    dsimp only
    rw [hMeta]
    split
    · split <;> rfl
    · rfl
  have hd : db.Get (IsActive c db w2 ns).2.db (generateNamespaceKey c ns key) =
      db.Get (IsActive c db w ns).2.db (generateNamespaceKey c ns key) := by
    rw [IsActive_db, IsActive_db]
    exact hData
  unfold GetKey dbGet
  dsimp only
  rw [ha, hd]
  split
  · rfl
  · split
    · rfl
    · split <;> rfl

theorem GarbageCollection_append {σ : Type} (c : Config) (db : kv.Service σ) :
    ∀ (pre : List (Ready × Branch)) (w : World σ) (l : List (Ready × Branch)),
      GarbageCollection c db w (pre ++ l) =
        match GarbageCollection c db w pre with
        | Loop.returned w1 => Loop.returned w1
        | Loop.running w1 => GarbageCollection c db w1 l
  | [], w, l => rfl
  | x :: pre, w, l => by
      rw [List.cons_append]
      rw [GarbageCollection, GarbageCollection]
      cases GarbageCollectionStep c db w x.2 with
      | returned w1 => rfl
      | running w1 => exact GarbageCollection_append c db pre w1 l

theorem Ready.allows_cancelled_only (r : Ready) (b : Branch) (ht : r.tick = false)
    (hb : r.allows b = true) : b = Branch.cancelled := by
  cases b with
  | cancelled => rfl
  | tick =>
    have h2 : r.tick = true := hb
    rw [ht] at h2
    exact absurd h2 (by decide)

theorem metaValuesOk_of_get_eq {σ : Type} (c : Config) (db : kv.ReadWriter σ) (s s2 : σ)
    (h : ∀ k, (c.MetaPrefix ++ ['.']) <+: k → db.Get s2 k = db.Get s k)
    (hInv : MetaValuesOk c db s) : MetaValuesOk c db s2 := by
  intro k v hk hg
  rw [h k hk] at hg
  exact hInv k v hk hg

theorem metaValuesOk_set_meta {σ : Type} (c : Config) (db : kv.ReadWriter σ)
    (hRAW : kv.ReadAfterWrite db) (hFrame : kv.Frame db) (hKeeps : kv.FailedSetKeeps db)
    (s : σ) (n value : Bytes)
    (hv : value = NamespaceExistsValue ∨ value = NamespaceDeletingValue)
    (hInv : MetaValuesOk c db s) :
    MetaValuesOk c db (db.Set s (generateMetaKey c n) value).2 := by
  intro k v hk hg
  by_cases hkn : k = generateMetaKey c n
  · subst hkn
    cases hs : (db.Set s (generateMetaKey c n) value).1 with
    | none =>
      rw [hRAW s _ _ hs] at hg
      simp only [Prod.mk.injEq, Option.some.injEq, and_true] at hg
      rw [← hg]
      exact hv
    | some e =>
      rw [hKeeps s _ _ e hs] at hg
      exact hInv _ v hk hg
  · rw [hFrame.1 s _ _ k hkn] at hg
    exact hInv k v hk hg

theorem metaValuesOk_set_data {σ : Type} (c : Config) (db : kv.ReadWriter σ)
    (hApart : c.Apart) (hFrame : kv.Frame db) (s : σ) (ns key value : Bytes)
    (hInv : MetaValuesOk c db s) :
    MetaValuesOk c db (db.Set s (generateNamespaceKey c ns key) value).2 := by
  apply metaValuesOk_of_get_eq c db s _ _ hInv
  intro k hk
  apply hFrame.1
  intro h
  rw [h] at hk
  exact Config.Apart.not_meta_range c hApart ns key hk

theorem metaValuesOk_delete_data {σ : Type} (c : Config) (db : kv.ReadWriter σ)
    (hApart : c.Apart) (hFrame : kv.Frame db) (s : σ) (ns key : Bytes)
    (hInv : MetaValuesOk c db s) :
    MetaValuesOk c db (db.Delete s (generateNamespaceKey c ns key)).2 := by
  apply metaValuesOk_of_get_eq c db s _ _ hInv
  intro k hk
  apply hFrame.2
  intro h
  rw [h] at hk
  exact Config.Apart.not_meta_range c hApart ns key hk

theorem metaValuesOk_delete_ok {σ : Type} (c : Config) (db : kv.ReadWriter σ)
    (hRAD : kv.ReadAfterDelete db) (hFrame : kv.Frame db) (s : σ) (key : Bytes)
    (hOk : (db.Delete s key).1 = none) (hInv : MetaValuesOk c db s) :
    MetaValuesOk c db (db.Delete s key).2 := by
  intro k v hk hg
  by_cases hkn : k = key
  · subst hkn
    obtain ⟨e, _, he⟩ := hRAD s k hOk
    rw [he] at hg
    simp at hg
  · rw [hFrame.2 s key k hkn] at hg
    exact hInv k v hk hg

theorem metaValuesOk_wipeNamespaceLoop {σ : Type} (c : Config) (rw : kv.ReadWriter σ)
    (hRAD : kv.ReadAfterDelete rw) (hFrame : kv.Frame rw) :
    ∀ (entries : List (Bytes × Bytes)) (w : World σ),
      (wipeNamespaceLoop rw w entries).1 = none → MetaValuesOk c rw w.db →
      MetaValuesOk c rw (wipeNamespaceLoop rw w entries).2.db
  | [], _, _, hInv => hInv
  | e :: rest, w, hOk, hInv => by
      rw [Namespace.wipeNamespaceLoop] at hOk ⊢
      cases hd : (dbDelete rw w e.1).1 with
      | some err => rw [hd] at hOk; simp at hOk
      | none =>
        rw [hd] at hOk
        dsimp only at hOk ⊢
        exact metaValuesOk_wipeNamespaceLoop c rw hRAD hFrame rest _ hOk
          (metaValuesOk_delete_ok c rw hRAD hFrame w.db e.1 hd hInv)

theorem metaValuesOk_wipeNamespace {σ : Type} (c : Config) (rw : kv.ReadWriter σ)
    (hRAD : kv.ReadAfterDelete rw) (hFrame : kv.Frame rw) (w : World σ) (n : Bytes)
    (hOk : (wipeNamespace c rw w n).1 = none) (hInv : MetaValuesOk c rw w.db) :
    MetaValuesOk c rw (wipeNamespace c rw w n).2.db := by
  unfold Namespace.wipeNamespace at hOk ⊢
  dsimp only at hOk ⊢
  cases hl : (Namespace.wipeNamespaceLoop rw (dbNewIterator rw.toReader w
      (generateNamespaceKey c n []) none).2
      (dbNewIterator rw.toReader w (generateNamespaceKey c n []) none).1).1 with
  | some err => rw [hl] at hOk; simp at hOk
  | none =>
    rw [hl] at hOk
    dsimp only at hOk ⊢
    have hloop := metaValuesOk_wipeNamespaceLoop c rw hRAD hFrame _ _ hl hInv
    cases hd : (dbDelete rw (Namespace.wipeNamespaceLoop rw (dbNewIterator rw.toReader w
        (generateNamespaceKey c n []) none).2
        (dbNewIterator rw.toReader w (generateNamespaceKey c n []) none).1).2
        (generateMetaKey c n)).1 with
    | some err => rw [hd] at hOk; simp at hOk
    | none =>
      dsimp only
      exact metaValuesOk_delete_ok c rw hRAD hFrame _ _ hd hloop

theorem metaValuesOk_garbageCollectNamespaces {σ : Type} (c : Config) (db : kv.Service σ)
    (hRAD : kv.ReadAfterDelete db.toReadWriter) (hFrame : kv.Frame db.toReadWriter)
    (hAtomic : kv.AllOrNothing db) :
    ∀ (names : List Bytes) (w : World σ), MetaValuesOk c db.toReadWriter w.db →
      MetaValuesOk c db.toReadWriter (garbageCollectNamespaces c db w names).2.db
  | [], _, hInv => hInv
  | name :: rest, w, hInv => by
      rw [garbageCollectNamespaces_cons]
      have hb : db.RWBatch w.db (wipeBatch c name) = _ := hAtomic w.db (wipeBatch c name)
      cases hw : (wipeNamespace c db.toReadWriter { db := w.db, calls := [] } name).1 with
      | some err =>
        have h1 : (dbRWBatch db w (wipeBatch c name)).1 = some err := by
          show (db.RWBatch w.db (wipeBatch c name)).1 = some err
          rw [hb]
          simp [wipeBatch, hw]
        have h2 : (dbRWBatch db w (wipeBatch c name)).2.db = w.db := by
          show (db.RWBatch w.db (wipeBatch c name)).2 = _
          rw [hb]
          simp [wipeBatch, hw]
        rw [h1]
        dsimp only
        rw [h2]
        exact hInv
      | none =>
        have h1 : (dbRWBatch db w (wipeBatch c name)).1 = none := by
          show (db.RWBatch w.db (wipeBatch c name)).1 = none
          rw [hb]
          simp [wipeBatch, hw]
        have h2 : (dbRWBatch db w (wipeBatch c name)).2.db =
            (wipeNamespace c db.toReadWriter { db := w.db, calls := [] } name).2.db := by
          show (db.RWBatch w.db (wipeBatch c name)).2 = _
          rw [hb]
          simp [wipeBatch, hw]
        rw [h1]
        dsimp only
        apply metaValuesOk_garbageCollectNamespaces c db hRAD hFrame hAtomic rest
        rw [h2]
        exact metaValuesOk_wipeNamespace c db.toReadWriter hRAD hFrame _ name hw hInv

theorem metaValuesOk_tick {σ : Type} (c : Config) (db : kv.Service σ)
    (hRAD : kv.ReadAfterDelete db.toReadWriter) (hFrame : kv.Frame db.toReadWriter)
    (hAtomic : kv.AllOrNothing db) (w : World σ)
    (hInv : MetaValuesOk c db.toReadWriter w.db) :
    MetaValuesOk c db.toReadWriter (GarbageCollectionTick c db w).2.db := by
  unfold GarbageCollectionTick
  dsimp only
  split
  · exact hInv
  · exact metaValuesOk_garbageCollectNamespaces c db hRAD hFrame hAtomic _ _ hInv

theorem metaValuesOk_op {σ : Type} (c : Config) (db : kv.ReadWriter σ)
    (hApart : c.Apart) (hRAW : kv.ReadAfterWrite db) (hFrame : kv.Frame db)
    (hKeeps : kv.FailedSetKeeps db) (w : World σ) (o : Op)
    (hInv : MetaValuesOk c db w.db) : MetaValuesOk c db (Op.run c db w o).db := by
  cases o with
  | CreateNamespace name =>
    show MetaValuesOk c db (Namespace.CreateNamespace c db w name).2.db
    rcases CreateNamespace_db c db w name with h | h
    · rw [h]; exact hInv
    · rw [h]
      exact metaValuesOk_set_meta c db hRAW hFrame hKeeps _ _ _ (Or.inl rfl) hInv
  | DeleteNamespace name =>
    show MetaValuesOk c db (Namespace.DeleteNamespace c db w name).2.db
    rcases DeleteNamespace_db c db w name with h | h
    · rw [h]; exact hInv
    · rw [h]
      exact metaValuesOk_set_meta c db hRAW hFrame hKeeps _ _ _ (Or.inr rfl) hInv
  | GetKey ns key =>
    show MetaValuesOk c db (Namespace.GetKey c db w ns key).2.db
    rw [GetKey_db]; exact hInv
  | SetKey ns key value =>
    show MetaValuesOk c db (Namespace.SetKey c db w ns key value).2.db
    rcases SetKey_db c db w ns key value with h | h
    · rw [h]; exact hInv
    · rw [h]
      exact metaValuesOk_set_data c db hApart hFrame _ _ _ _ hInv
  | DeleteKey ns key =>
    show MetaValuesOk c db (Namespace.DeleteKey c db w ns key).2.db
    rcases DeleteKey_db c db w ns key with h | h
    · rw [h]; exact hInv
    · rw [h]
      exact metaValuesOk_delete_data c db hApart hFrame _ _ _ hInv

theorem memKV_failedSetKeeps : kv.FailedSetKeeps memKV := by
  intro s key value e h
  exact absurd h (by simp [memKV, MemStore.Set])

/-! ## The lifecycle operations -/

/-- C1: for every store and every name, `IsActive(name)` issues one call on the store,
the read of `generateMetaKey(name)`, and leaves the store as it is; it returns
`(true, nil)` exactly when that read succeeds with a value equal to `EXISTS`; it returns
`(false, nil)` when the read reports not-found and when it succeeds with `DELETING`; and
when the read fails with an error that is not not-found it returns that error. -/
theorem IsActive_spec {σ : Type} (c : Config) (db : kv.ReadWriter σ) (w : World σ)
    (name : Bytes) :
    (IsActive c db w name).2 =
        { db := w.db, calls := w.calls ++ [Call.Get (generateMetaKey c name)] } ∧
    ((IsActive c db w name).1 = (true, none) ↔
        ∃ v, db.Get w.db (generateMetaKey c name) = (v, none) ∧
          bytes.Equal v (some NamespaceExistsValue) = true) ∧
    (∀ v e, db.Get w.db (generateMetaKey c name) = (v, some e) →
        errors.Is e kv.ErrKeyNotFound = true → (IsActive c db w name).1 = (false, none)) ∧
    (∀ v, db.Get w.db (generateMetaKey c name) = (v, none) →
        bytes.Equal v (some NamespaceDeletingValue) = true →
        (IsActive c db w name).1 = (false, none)) ∧
    (∀ v e, db.Get w.db (generateMetaKey c name) = (v, some e) →
        errors.Is e kv.ErrKeyNotFound = false →
        (IsActive c db w name).1 = (false, some e)) := by
  refine ⟨?_, ?_, ?_, ?_, ?_⟩
  · unfold IsActive dbGet
    dsimp only
    split
    · split <;> rfl
    · rfl
  · unfold IsActive dbGet
    dsimp only
    rcases hg : db.Get w.db (generateMetaKey c name) with ⟨v, e⟩
    cases e with
    | none => simp
    | some e => by_cases he : errors.Is e kv.ErrKeyNotFound = true <;> simp [he]
  · intro v e hg he
    simp [IsActive, dbGet, hg, he]
  · intro v hg hv
    have hne : bytes.Equal v (some NamespaceExistsValue) = false := by
      unfold bytes.Equal at hv ⊢
      simp only [decide_eq_true_eq, Option.getD_some] at hv
      simp only [Option.getD_some, hv]
      decide
    simp [IsActive, dbGet, hg, hne]
  · intro v e hg he
    simp [IsActive, dbGet, hg, he]

/-- C2: when the meta entry of `name` is absent (the read of `generateMetaKey(name)`
reports not-found), the write of the entry succeeds and the store gives per-key
read-after-write, `CreateNamespace(name)` returns success, the meta entry then holds
`EXISTS`, and an `IsActive(name)` right after it returns `(true, nil)`. -/
theorem CreateNamespace_absent {σ : Type} (c : Config) (db : kv.ReadWriter σ)
    (w : World σ) (name : Bytes)
    (hAbsent : ∃ e, errors.Is e kv.ErrKeyNotFound = true ∧
      db.Get w.db (generateMetaKey c name) = (none, some e))
    (hSet : (db.Set w.db (generateMetaKey c name) NamespaceExistsValue).1 = none)
    (hRAW : kv.ReadAfterWrite db) :
    (CreateNamespace c db w name).1 = none ∧
    db.Get (CreateNamespace c db w name).2.db (generateMetaKey c name) =
      (some NamespaceExistsValue, none) ∧
    (IsActive c db (CreateNamespace c db w name).2 name).1 = (true, none) := by
  obtain ⟨e, he, hg⟩ := hAbsent
  have hres : (CreateNamespace c db w name).1 = none := by
    simp [CreateNamespace, dbGet, dbSet, hg, he, hSet, bytes.Equal_none_exists,
      bytes.Equal_none_deleting]
  have hst := (CreateNamespace_success c db w name hres).2
  have hget : db.Get (CreateNamespace c db w name).2.db (generateMetaKey c name) =
      (some NamespaceExistsValue, none) := by
    rw [hst]
    exact hRAW _ _ _ hSet
  refine ⟨hres, hget, ?_⟩
  rw [IsActive_of_value c db _ name _ hget]
  simp [bytes.Equal_self]

/-- Witness of C2: the empty in-memory store and the name `a`. -/
theorem CreateNamespace_absent_witness :
    (∃ e, errors.Is e kv.ErrKeyNotFound = true ∧
      memKV.Get exampleEmpty.db (generateMetaKey exampleConfig ['a']) = (none, some e)) ∧
    ((CreateNamespace exampleConfig memKV exampleEmpty ['a']).1 = none ∧
    memKV.Get (CreateNamespace exampleConfig memKV exampleEmpty ['a']).2.db
        (generateMetaKey exampleConfig ['a']) = (some NamespaceExistsValue, none) ∧
    (IsActive exampleConfig memKV
        (CreateNamespace exampleConfig memKV exampleEmpty ['a']).2 ['a']).1 =
      (true, none)) :=
  ⟨⟨kv.ErrKeyNotFound, by decide, by decide⟩,
    CreateNamespace_absent exampleConfig memKV exampleEmpty ['a']
      ⟨kv.ErrKeyNotFound, by decide, by decide⟩ (by decide) memKV_readAfterWrite⟩

/-- C3: if a first `CreateNamespace(name)` succeeded (on a store with per-key
read-after-write), a second `CreateNamespace(name)` right after it fails with
`ErrNamespaceAlreadyExists` and performs no write: its only call on the store is the
read of the meta key, the store is the same after it as before it, and the meta entry
holds `EXISTS` before and after. -/
theorem CreateNamespace_twice {σ : Type} (c : Config) (db : kv.ReadWriter σ)
    (w : World σ) (name : Bytes)
    (hRAW : kv.ReadAfterWrite db)
    (hFirst : (CreateNamespace c db w name).1 = none) :
    (CreateNamespace c db (CreateNamespace c db w name).2 name).1 =
      some ErrNamespaceAlreadyExists ∧
    (CreateNamespace c db (CreateNamespace c db w name).2 name).2 =
      { db := (CreateNamespace c db w name).2.db,
        calls := (CreateNamespace c db w name).2.calls ++
          [Call.Get (generateMetaKey c name)] } ∧
    db.Get (CreateNamespace c db w name).2.db (generateMetaKey c name) =
      (some NamespaceExistsValue, none) ∧
    db.Get (CreateNamespace c db (CreateNamespace c db w name).2 name).2.db
      (generateMetaKey c name) = (some NamespaceExistsValue, none) := by
  obtain ⟨hSet, hst⟩ := CreateNamespace_success c db w name hFirst
  have hget : db.Get (CreateNamespace c db w name).2.db (generateMetaKey c name) =
      (some NamespaceExistsValue, none) := by
    rw [hst]
    exact hRAW _ _ _ hSet
  generalize (CreateNamespace c db w name).2 = w1 at hget ⊢
  have h2 : CreateNamespace c db w1 name =
      (some ErrNamespaceAlreadyExists,
        { db := w1.db, calls := w1.calls ++ [Call.Get (generateMetaKey c name)] }) := by
    simp [CreateNamespace, dbGet, hget, bytes.Equal_self]
  rw [h2]
  exact ⟨rfl, rfl, hget, hget⟩

/-- Witness of C3: the empty in-memory store and the name `a`. -/
theorem CreateNamespace_twice_witness :
    (CreateNamespace exampleConfig memKV exampleEmpty ['a']).1 = none ∧
    ((CreateNamespace exampleConfig memKV
        (CreateNamespace exampleConfig memKV exampleEmpty ['a']).2 ['a']).1 =
      some ErrNamespaceAlreadyExists ∧
    (CreateNamespace exampleConfig memKV
        (CreateNamespace exampleConfig memKV exampleEmpty ['a']).2 ['a']).2 =
      { db := (CreateNamespace exampleConfig memKV exampleEmpty ['a']).2.db,
        calls := (CreateNamespace exampleConfig memKV exampleEmpty ['a']).2.calls ++
          [Call.Get (generateMetaKey exampleConfig ['a'])] } ∧
    memKV.Get (CreateNamespace exampleConfig memKV exampleEmpty ['a']).2.db
      (generateMetaKey exampleConfig ['a']) = (some NamespaceExistsValue, none) ∧
    memKV.Get (CreateNamespace exampleConfig memKV
        (CreateNamespace exampleConfig memKV exampleEmpty ['a']).2 ['a']).2.db
      (generateMetaKey exampleConfig ['a']) = (some NamespaceExistsValue, none)) :=
  ⟨by decide,
    CreateNamespace_twice exampleConfig memKV exampleEmpty ['a'] memKV_readAfterWrite
      (by decide)⟩

/-- C4: when the meta entry of `name` holds `DELETING`, `CreateNamespace(name)` fails
with `ErrNamespaceDeleting` and leaves the store unchanged: its only call on the store
is the read of the meta key (no key is written, no data key is touched), and the meta
entry still holds `DELETING`. -/
theorem CreateNamespace_deleting {σ : Type} (c : Config) (db : kv.ReadWriter σ)
    (w : World σ) (name : Bytes)
    (hDel : db.Get w.db (generateMetaKey c name) = (some NamespaceDeletingValue, none)) :
    CreateNamespace c db w name =
      (some ErrNamespaceDeleting,
        { db := w.db, calls := w.calls ++ [Call.Get (generateMetaKey c name)] }) ∧
    db.Get (CreateNamespace c db w name).2.db (generateMetaKey c name) =
      (some NamespaceDeletingValue, none) := by
  have h : CreateNamespace c db w name =
      (some ErrNamespaceDeleting,
        { db := w.db, calls := w.calls ++ [Call.Get (generateMetaKey c name)] }) := by
    simp [CreateNamespace, dbGet, hDel, bytes.Equal_self, bytes.Equal_deleting_exists]
  refine ⟨h, ?_⟩
  rw [h]
  exact hDel

/-- Witness of C4: the namespace `a` is marked and still has its data key `k`. -/
theorem CreateNamespace_deleting_witness :
    memKV.Get exampleDeleting.db (generateMetaKey exampleConfig ['a']) =
      (some NamespaceDeletingValue, none) ∧
    (CreateNamespace exampleConfig memKV exampleDeleting ['a'] =
      (some ErrNamespaceDeleting,
        { db := exampleDeleting.db,
          calls := exampleDeleting.calls ++
            [Call.Get (generateMetaKey exampleConfig ['a'])] }) ∧
    memKV.Get (CreateNamespace exampleConfig memKV exampleDeleting ['a']).2.db
      (generateMetaKey exampleConfig ['a']) = (some NamespaceDeletingValue, none)) :=
  ⟨by decide,
    CreateNamespace_deleting exampleConfig memKV exampleDeleting ['a'] (by decide)⟩

/-- C5: when the meta entry of `name` holds `EXISTS` (the write of the entry succeeds
and the store gives per-key read-after-write), `DeleteNamespace(name)` returns success
and the meta entry then holds `DELETING`; a second `DeleteNamespace(name)` right after it
fails with `ErrNamespaceDeleting`, its only call on the store is the read of the meta key
and the store is unchanged. -/
theorem DeleteNamespace_exists {σ : Type} (c : Config) (db : kv.ReadWriter σ)
    (w : World σ) (name : Bytes)
    (hEx : db.Get w.db (generateMetaKey c name) = (some NamespaceExistsValue, none))
    (hSet : (db.Set w.db (generateMetaKey c name) NamespaceDeletingValue).1 = none)
    (hRAW : kv.ReadAfterWrite db) :
    (DeleteNamespace c db w name).1 = none ∧
    db.Get (DeleteNamespace c db w name).2.db (generateMetaKey c name) =
      (some NamespaceDeletingValue, none) ∧
    DeleteNamespace c db (DeleteNamespace c db w name).2 name =
      (some ErrNamespaceDeleting,
        { db := (DeleteNamespace c db w name).2.db,
          calls := (DeleteNamespace c db w name).2.calls ++
            [Call.Get (generateMetaKey c name)] }) := by
  have hres : (DeleteNamespace c db w name).1 = none := by
    simp [DeleteNamespace, dbGet, dbSet, hEx, hSet, bytes.Equal_exists_deleting]
  have hst := (DeleteNamespace_success c db w name hres).2
  have hget : db.Get (DeleteNamespace c db w name).2.db (generateMetaKey c name) =
      (some NamespaceDeletingValue, none) := by
    rw [hst]
    exact hRAW _ _ _ hSet
  refine ⟨hres, hget, ?_⟩
  generalize (DeleteNamespace c db w name).2 = w1 at hget ⊢
  simp [DeleteNamespace, dbGet, hget, bytes.Equal_self]

/-- Witness of C5: the active namespace `a` with its data key `k`. -/
theorem DeleteNamespace_exists_witness :
    memKV.Get exampleActive.db (generateMetaKey exampleConfig ['a']) =
      (some NamespaceExistsValue, none) ∧
    ((DeleteNamespace exampleConfig memKV exampleActive ['a']).1 = none ∧
    memKV.Get (DeleteNamespace exampleConfig memKV exampleActive ['a']).2.db
      (generateMetaKey exampleConfig ['a']) = (some NamespaceDeletingValue, none) ∧
    DeleteNamespace exampleConfig memKV
        (DeleteNamespace exampleConfig memKV exampleActive ['a']).2 ['a'] =
      (some ErrNamespaceDeleting,
        { db := (DeleteNamespace exampleConfig memKV exampleActive ['a']).2.db,
          calls := (DeleteNamespace exampleConfig memKV exampleActive ['a']).2.calls ++
            [Call.Get (generateMetaKey exampleConfig ['a'])] })) :=
  ⟨by decide,
    DeleteNamespace_exists exampleConfig memKV exampleActive ['a']
      (by decide) (by decide) memKV_readAfterWrite⟩

/-- C6: when the meta entry of `name` is absent (the read of `generateMetaKey(name)`
reports not-found), `DeleteNamespace(name)` fails with `ErrNamespaceNotFound` and
performs no write: its only call on the store is the read of the meta key, the store is
unchanged, and the read of the meta key answers afterwards what it answered before. -/
theorem DeleteNamespace_absent {σ : Type} (c : Config) (db : kv.ReadWriter σ)
    (w : World σ) (name : Bytes)
    (hAbsent : ∃ e, errors.Is e kv.ErrKeyNotFound = true ∧
      db.Get w.db (generateMetaKey c name) = (none, some e)) :
    DeleteNamespace c db w name =
      (some ErrNamespaceNotFound,
        { db := w.db, calls := w.calls ++ [Call.Get (generateMetaKey c name)] }) ∧
    db.Get (DeleteNamespace c db w name).2.db (generateMetaKey c name) =
      db.Get w.db (generateMetaKey c name) := by
  obtain ⟨e, he, hg⟩ := hAbsent
  have h : DeleteNamespace c db w name =
      (some ErrNamespaceNotFound,
        { db := w.db, calls := w.calls ++ [Call.Get (generateMetaKey c name)] }) := by
    simp [DeleteNamespace, dbGet, hg, he]
  refine ⟨h, ?_⟩
  rw [h]

/-- Witness of C6: the name `b` on a store that holds the namespace `a` only. -/
theorem DeleteNamespace_absent_witness :
    (∃ e, errors.Is e kv.ErrKeyNotFound = true ∧
      memKV.Get exampleActive.db (generateMetaKey exampleConfig ['b']) = (none, some e)) ∧
    (DeleteNamespace exampleConfig memKV exampleActive ['b'] =
      (some ErrNamespaceNotFound,
        { db := exampleActive.db,
          calls := exampleActive.calls ++
            [Call.Get (generateMetaKey exampleConfig ['b'])] }) ∧
    memKV.Get (DeleteNamespace exampleConfig memKV exampleActive ['b']).2.db
      (generateMetaKey exampleConfig ['b']) =
      memKV.Get exampleActive.db (generateMetaKey exampleConfig ['b'])) :=
  ⟨⟨kv.ErrKeyNotFound, by decide, by decide⟩,
    DeleteNamespace_absent exampleConfig memKV exampleActive ['b']
      ⟨kv.ErrKeyNotFound, by decide, by decide⟩⟩

/-- C7: after a `DeleteNamespace(ns)` that has just succeeded (on a store with per-key
read-after-write), for every key `k` and value `v` each of `GetKey(ns,k)`,
`SetKey(ns,k,v)` and `DeleteKey(ns,k)` fails with `ErrNamespaceNotFound`, whatever the
store holds under the data key `generateNamespaceKey(ns,k)`: the only call each issues on
the store is the read of the meta key, the store is unchanged, and `GetKey` returns no
value. -/
theorem keyOps_after_DeleteNamespace {σ : Type} (c : Config) (db : kv.ReadWriter σ)
    (w : World σ) (ns k v : Bytes)
    (hRAW : kv.ReadAfterWrite db)
    (hDeleted : (DeleteNamespace c db w ns).1 = none) :
    GetKey c db (DeleteNamespace c db w ns).2 ns k =
      ((none, some ErrNamespaceNotFound),
        { db := (DeleteNamespace c db w ns).2.db,
          calls := (DeleteNamespace c db w ns).2.calls ++
            [Call.Get (generateMetaKey c ns)] }) ∧
    SetKey c db (DeleteNamespace c db w ns).2 ns k v =
      (some ErrNamespaceNotFound,
        { db := (DeleteNamespace c db w ns).2.db,
          calls := (DeleteNamespace c db w ns).2.calls ++
            [Call.Get (generateMetaKey c ns)] }) ∧
    DeleteKey c db (DeleteNamespace c db w ns).2 ns k =
      (some ErrNamespaceNotFound,
        { db := (DeleteNamespace c db w ns).2.db,
          calls := (DeleteNamespace c db w ns).2.calls ++
            [Call.Get (generateMetaKey c ns)] }) := by
  obtain ⟨hSet, hst⟩ := DeleteNamespace_success c db w ns hDeleted
  have hget : db.Get (DeleteNamespace c db w ns).2.db (generateMetaKey c ns) =
      (some NamespaceDeletingValue, none) := by
    rw [hst]
    exact hRAW _ _ _ hSet
  generalize (DeleteNamespace c db w ns).2 = w1 at hget ⊢
  have ha := IsActive_of_value c db w1 ns _ hget
  rw [bytes.Equal_deleting_exists] at ha
  refine ⟨?_, ?_, ?_⟩
  · simp [GetKey, ha]
  · simp [SetKey, ha]
  · simp [DeleteKey, ha]

/-- Witness of C7: the namespace `a` with the data key `k`, which is still in the store
after `DeleteNamespace`. -/
theorem keyOps_after_DeleteNamespace_witness :
    ((DeleteNamespace exampleConfig memKV exampleActive ['a']).1 = none ∧
      memKV.Get (DeleteNamespace exampleConfig memKV exampleActive ['a']).2.db
        (generateNamespaceKey exampleConfig ['a'] ['k']) = (some ['o', 'l', 'd'], none)) ∧
    (GetKey exampleConfig memKV
        (DeleteNamespace exampleConfig memKV exampleActive ['a']).2 ['a'] ['k'] =
      ((none, some ErrNamespaceNotFound),
        { db := (DeleteNamespace exampleConfig memKV exampleActive ['a']).2.db,
          calls := (DeleteNamespace exampleConfig memKV exampleActive ['a']).2.calls ++
            [Call.Get (generateMetaKey exampleConfig ['a'])] }) ∧
    SetKey exampleConfig memKV
        (DeleteNamespace exampleConfig memKV exampleActive ['a']).2 ['a'] ['k'] ['v'] =
      (some ErrNamespaceNotFound,
        { db := (DeleteNamespace exampleConfig memKV exampleActive ['a']).2.db,
          calls := (DeleteNamespace exampleConfig memKV exampleActive ['a']).2.calls ++
            [Call.Get (generateMetaKey exampleConfig ['a'])] }) ∧
    DeleteKey exampleConfig memKV
        (DeleteNamespace exampleConfig memKV exampleActive ['a']).2 ['a'] ['k'] =
      (some ErrNamespaceNotFound,
        { db := (DeleteNamespace exampleConfig memKV exampleActive ['a']).2.db,
          calls := (DeleteNamespace exampleConfig memKV exampleActive ['a']).2.calls ++
            [Call.Get (generateMetaKey exampleConfig ['a'])] })) :=
  ⟨⟨by decide, by decide⟩,
    keyOps_after_DeleteNamespace exampleConfig memKV exampleActive ['a'] ['k'] ['v']
      memKV_readAfterWrite (by decide)⟩

/-- C8: for an active namespace `ns` (meta entry `EXISTS`), every key `k` and value `v`,
whatever the store held under `k` before: on a store with per-key read-after-write whose
successful `Set` leaves the other keys alone, and with prefixes that keep meta keys and
data keys apart, a `SetKey(ns,k,v)` whose write succeeds returns success after reading the
meta key and writing `v` under `generateNamespaceKey(ns,k)`, the meta entry of `ns` still
holds `EXISTS`, and a `GetKey(ns,k)` right after it returns exactly `v` and no error. -/
theorem SetKey_then_GetKey {σ : Type} (c : Config) (db : kv.ReadWriter σ)
    (w : World σ) (ns k v : Bytes)
    (hApart : c.Apart) (hRAW : kv.ReadAfterWrite db) (hFrame : kv.SetFrame db)
    (hActive : db.Get w.db (generateMetaKey c ns) = (some NamespaceExistsValue, none))
    (hSet : (db.Set w.db (generateNamespaceKey c ns k) v).1 = none) :
    SetKey c db w ns k v =
      (none,
        { db := (db.Set w.db (generateNamespaceKey c ns k) v).2,
          calls := w.calls ++ [Call.Get (generateMetaKey c ns)] ++
            [Call.Set (generateNamespaceKey c ns k) v] }) ∧
    db.Get (SetKey c db w ns k v).2.db (generateMetaKey c ns) =
      (some NamespaceExistsValue, none) ∧
    (GetKey c db (SetKey c db w ns k v).2 ns k).1 = (some v, none) := by
  have ha := IsActive_of_value c db w ns _ hActive
  rw [bytes.Equal_self] at ha
  have hs : SetKey c db w ns k v =
      (none,
        { db := (db.Set w.db (generateNamespaceKey c ns k) v).2,
          calls := w.calls ++ [Call.Get (generateMetaKey c ns)] ++
            [Call.Set (generateNamespaceKey c ns k) v] }) := by
    simp [SetKey, ha, dbSet, hSet]
  have hmeta : db.Get (db.Set w.db (generateNamespaceKey c ns k) v).2
      (generateMetaKey c ns) = (some NamespaceExistsValue, none) := by
    rw [hFrame _ _ _ _ hSet (generateMetaKey_ne_generateNamespaceKey c hApart ns ns k)]
    exact hActive
  have hdata := hRAW _ _ _ hSet
  rw [hs]
  refine ⟨rfl, hmeta, ?_⟩
  rw [GetKey_active_value c db
    { db := (db.Set w.db (generateNamespaceKey c ns k) v).2,
      calls := w.calls ++ [Call.Get (generateMetaKey c ns)] ++
        [Call.Set (generateNamespaceKey c ns k) v] } ns k (some v) hmeta hdata]

/-- Witness of C8: the key `k` of the active namespace `a` holds `old` and is set to
`v`. -/
theorem SetKey_then_GetKey_witness :
    (memKV.Get exampleActive.db (generateMetaKey exampleConfig ['a']) =
        (some NamespaceExistsValue, none) ∧
      memKV.Get exampleActive.db (generateNamespaceKey exampleConfig ['a'] ['k']) =
        (some ['o', 'l', 'd'], none)) ∧
    (SetKey exampleConfig memKV exampleActive ['a'] ['k'] ['v'] =
      (none,
        { db := (memKV.Set exampleActive.db
            (generateNamespaceKey exampleConfig ['a'] ['k']) ['v']).2,
          calls := exampleActive.calls ++ [Call.Get (generateMetaKey exampleConfig ['a'])] ++
            [Call.Set (generateNamespaceKey exampleConfig ['a'] ['k']) ['v']] }) ∧
    memKV.Get (SetKey exampleConfig memKV exampleActive ['a'] ['k'] ['v']).2.db
      (generateMetaKey exampleConfig ['a']) = (some NamespaceExistsValue, none) ∧
    (GetKey exampleConfig memKV
        (SetKey exampleConfig memKV exampleActive ['a'] ['k'] ['v']).2 ['a'] ['k']).1 =
      (some ['v'], none)) :=
  ⟨⟨by decide, by decide⟩,
    SetKey_then_GetKey exampleConfig memKV exampleActive ['a'] ['k'] ['v']
      exampleConfig_apart memKV_readAfterWrite memKV_setFrame (by decide) (by decide)⟩

/-- C9: for an active namespace `ns` and a key `k`, on a store whose `Get` after a
successful `Delete` of the same key reports not-found and whose successful `Delete`
leaves the other keys alone (prefixes keeping meta keys and data keys apart), a
`DeleteKey(ns,k)` whose delete succeeds returns success, and the `GetKey(ns,k)` right
after it returns no value and, verbatim, the not-found error that the store gives for
the physical key `generateNamespaceKey(ns,k)`. -/
theorem DeleteKey_then_GetKey {σ : Type} (c : Config) (db : kv.ReadWriter σ)
    (w : World σ) (ns k : Bytes)
    (hApart : c.Apart) (hRAD : kv.ReadAfterDelete db) (hFrame : kv.DeleteFrame db)
    (hActive : db.Get w.db (generateMetaKey c ns) = (some NamespaceExistsValue, none))
    (hDel : (db.Delete w.db (generateNamespaceKey c ns k)).1 = none) :
    (DeleteKey c db w ns k).1 = none ∧
    ∃ e, errors.Is e kv.ErrKeyNotFound = true ∧
      db.Get (DeleteKey c db w ns k).2.db (generateNamespaceKey c ns k) = (none, some e) ∧
      (GetKey c db (DeleteKey c db w ns k).2 ns k).1 = (none, some e) := by
  have ha := IsActive_of_value c db w ns _ hActive
  rw [bytes.Equal_self] at ha
  have hs : DeleteKey c db w ns k =
      (none,
        { db := (db.Delete w.db (generateNamespaceKey c ns k)).2,
          calls := w.calls ++ [Call.Get (generateMetaKey c ns)] ++
            [Call.Delete (generateNamespaceKey c ns k)] }) := by
    simp [DeleteKey, ha, dbDelete, hDel]
  have hmeta : db.Get (db.Delete w.db (generateNamespaceKey c ns k)).2
      (generateMetaKey c ns) = (some NamespaceExistsValue, none) := by
    rw [hFrame _ _ _ hDel (generateMetaKey_ne_generateNamespaceKey c hApart ns ns k)]
    exact hActive
  obtain ⟨e, he, hdata⟩ := hRAD _ _ hDel
  rw [hs]
  refine ⟨rfl, e, he, hdata, ?_⟩
  rw [GetKey_active_error c db
    { db := (db.Delete w.db (generateNamespaceKey c ns k)).2,
      calls := w.calls ++ [Call.Get (generateMetaKey c ns)] ++
        [Call.Delete (generateNamespaceKey c ns k)] } ns k none e hmeta hdata]

/-- Witness of C9: the key `k` of the active namespace `a` is deleted and read again. -/
theorem DeleteKey_then_GetKey_witness :
    memKV.Get exampleActive.db (generateMetaKey exampleConfig ['a']) =
      (some NamespaceExistsValue, none) ∧
    ((DeleteKey exampleConfig memKV exampleActive ['a'] ['k']).1 = none ∧
    ∃ e, errors.Is e kv.ErrKeyNotFound = true ∧
      memKV.Get (DeleteKey exampleConfig memKV exampleActive ['a'] ['k']).2.db
        (generateNamespaceKey exampleConfig ['a'] ['k']) = (none, some e) ∧
      (GetKey exampleConfig memKV
        (DeleteKey exampleConfig memKV exampleActive ['a'] ['k']).2 ['a'] ['k']).1 =
        (none, some e)) :=
  ⟨by decide,
    DeleteKey_then_GetKey exampleConfig memKV exampleActive ['a'] ['k']
      exampleConfig_apart memKV_readAfterDelete memKV_deleteFrame (by decide) (by decide)⟩

/-- C10: on the store that holds the active namespace `a` and no data key, `GetKey(a,k)`
returns the store's `kv.ErrKeyNotFound`, which is not the value `ErrKeyNotFound` of
package `namespace`; `writeErrorResponse` applied to it with code 0 takes the default
branch, and the get-key handler answers 500 Internal Server Error, where the error
`ErrKeyNotFound` of package `namespace` would have been answered 404 Not Found. -/
theorem GetKey_absent_key_answers_500 :
    (GetKey exampleConfig memKV exampleBare ['a'] ['k']).1 =
      (none, some kv.ErrKeyNotFound) ∧
    kv.ErrKeyNotFound ≠ Namespace.ErrKeyNotFound ∧
    endpoints.writeErrorResponse
        (GetKey exampleConfig memKV exampleBare ['a'] ['k']).1.2 0 =
      http.StatusInternalServerError ∧
    (endpoints.NewGetKeyHandler exampleConfig memKV exampleBare ['a'] ['k']).1 =
      (500, none) ∧
    endpoints.writeErrorResponse (some Namespace.ErrKeyNotFound) 0 =
      http.StatusNotFound := by
  refine ⟨by decide, by decide, by decide, by decide, by decide⟩

/-- C11: `DeleteKey` is idempotent.  For an active namespace `ns` and a key `k`, on a
store whose `Delete` of an absent key is not an error and changes nothing (and whose
`Get` after a `Delete` reports not-found, a `Delete` leaving the other keys alone, the
prefixes keeping meta keys and data keys apart): when the first `DeleteKey(ns,k)`
succeeds the second one succeeds too and the store after the second call is the store
after the first; and a `DeleteKey` of a key that is absent succeeds and leaves the store
as it is. -/
theorem DeleteKey_idempotent {σ : Type} (c : Config) (db : kv.ReadWriter σ)
    (w : World σ) (ns k : Bytes)
    (hApart : c.Apart) (hRAD : kv.ReadAfterDelete db) (hFrame : kv.DeleteFrame db)
    (hAbsent : kv.DeleteAbsent db)
    (hActive : db.Get w.db (generateMetaKey c ns) = (some NamespaceExistsValue, none))
    (hDel : (db.Delete w.db (generateNamespaceKey c ns k)).1 = none) :
    (DeleteKey c db w ns k).1 = none ∧
    (DeleteKey c db (DeleteKey c db w ns k).2 ns k).1 = none ∧
    (DeleteKey c db (DeleteKey c db w ns k).2 ns k).2.db = (DeleteKey c db w ns k).2.db ∧
    (kv.Absent db w.db (generateNamespaceKey c ns k) →
      (DeleteKey c db w ns k).2.db = w.db) := by
  have hs := DeleteKey_active_ok c db w ns k hActive hDel
  have hmeta : db.Get (db.Delete w.db (generateNamespaceKey c ns k)).2
      (generateMetaKey c ns) = (some NamespaceExistsValue, none) := by
    rw [hFrame _ _ _ hDel (generateMetaKey_ne_generateNamespaceKey c hApart ns ns k)]
    exact hActive
  have habs : kv.Absent db (db.Delete w.db (generateNamespaceKey c ns k)).2
      (generateNamespaceKey c ns k) := hRAD _ _ hDel
  have h2 := hAbsent _ _ habs
  have hs2 := DeleteKey_active_ok c db
    { db := (db.Delete w.db (generateNamespaceKey c ns k)).2,
      calls := w.calls ++ [Call.Get (generateMetaKey c ns)] ++
        [Call.Delete (generateNamespaceKey c ns k)] } ns k hmeta (by rw [h2])
  rw [hs, hs2]
  refine ⟨rfl, rfl, ?_, ?_⟩
  · show (db.Delete (db.Delete w.db (generateNamespaceKey c ns k)).2
        (generateNamespaceKey c ns k)).2 = _
    rw [h2]
  · intro h0
    show (db.Delete w.db (generateNamespaceKey c ns k)).2 = w.db
    rw [hAbsent _ _ h0]

/-- Witness of C11: the key `k` of the active namespace `a` is deleted twice, and the
key `z`, which was never set, is deleted. -/
theorem DeleteKey_idempotent_witness :
    memKV.Get exampleActive.db (generateMetaKey exampleConfig ['a']) =
      (some NamespaceExistsValue, none) ∧
    ((DeleteKey exampleConfig memKV exampleActive ['a'] ['k']).1 = none ∧
    (DeleteKey exampleConfig memKV
      (DeleteKey exampleConfig memKV exampleActive ['a'] ['k']).2 ['a'] ['k']).1 = none ∧
    (DeleteKey exampleConfig memKV
      (DeleteKey exampleConfig memKV exampleActive ['a'] ['k']).2 ['a'] ['k']).2.db =
      (DeleteKey exampleConfig memKV exampleActive ['a'] ['k']).2.db ∧
    (kv.Absent memKV exampleActive.db (generateNamespaceKey exampleConfig ['a'] ['k']) →
      (DeleteKey exampleConfig memKV exampleActive ['a'] ['k']).2.db =
        exampleActive.db)) ∧
    (DeleteKey exampleConfig memKV exampleActive ['a'] ['z']).2.db = exampleActive.db :=
  ⟨by decide,
    DeleteKey_idempotent exampleConfig memKV exampleActive ['a'] ['k']
      exampleConfig_apart memKV_readAfterDelete memKV_deleteFrame memKV_deleteAbsent
      (by decide) (by decide),
    (DeleteKey_idempotent exampleConfig memKV exampleActive ['a'] ['z']
      exampleConfig_apart memKV_readAfterDelete memKV_deleteFrame memKV_deleteAbsent
      (by decide) (by decide)).2.2.2 ⟨kv.ErrKeyNotFound, by decide, by decide⟩⟩

/-- C19: a tombstoned name is not reusable until reclamation.  When the meta entry of
`n` holds `DELETING`, then after every finite sequence of `CreateNamespace`,
`DeleteNamespace`, `GetKey`, `SetKey` and `DeleteKey` calls, on any names, keys and
values (`n` included) and whatever each call returns, the meta entry of `n` still holds
`DELETING` and `IsActive(n)` returns `(false, nil)`.  Stated for prefixes that keep meta
keys and data keys apart, on a store whose write of one key leaves the other keys
alone. -/
theorem tombstone_not_reusable {σ : Type} (c : Config) (db : kv.ReadWriter σ)
    (hApart : c.Apart) (hFrame : kv.Frame db) (n : Bytes) (ops : List Op) (w : World σ)
    (hDel : db.Get w.db (generateMetaKey c n) = (some NamespaceDeletingValue, none)) :
    db.Get (runOps c db w ops).db (generateMetaKey c n) =
      (some NamespaceDeletingValue, none) ∧
    (IsActive c db (runOps c db w ops) n).1 = (false, none) := by
  have hkeep : db.Get (runOps c db w ops).db (generateMetaKey c n) =
      (some NamespaceDeletingValue, none) := by
    induction ops generalizing w with
    | nil => exact hDel
    | cons op rest ih =>
      exact ih (Op.run c db w op) (tombstone_kept_by_op c db hApart hFrame n w op hDel)
  refine ⟨hkeep, ?_⟩
  rw [IsActive_of_value c db _ n _ hkeep, bytes.Equal_deleting_exists]

/-- Witness of C19: on the store where `a` is marked, `a` is created, a key of `a` is
set, `a` is deleted, another namespace is created and written, and `a` is created
again. -/
theorem tombstone_not_reusable_witness :
    memKV.Get exampleDeleting.db (generateMetaKey exampleConfig ['a']) =
      (some NamespaceDeletingValue, none) ∧
    (memKV.Get (runOps exampleConfig memKV exampleDeleting
        [Op.CreateNamespace ['a'], Op.SetKey ['a'] ['k'] ['v'], Op.DeleteNamespace ['a'],
          Op.CreateNamespace ['b'], Op.SetKey ['b'] ['k'] ['v'], Op.DeleteKey ['a'] ['k'],
          Op.GetKey ['a'] ['k'], Op.CreateNamespace ['a']]).db
        (generateMetaKey exampleConfig ['a']) = (some NamespaceDeletingValue, none) ∧
    (IsActive exampleConfig memKV (runOps exampleConfig memKV exampleDeleting
        [Op.CreateNamespace ['a'], Op.SetKey ['a'] ['k'] ['v'], Op.DeleteNamespace ['a'],
          Op.CreateNamespace ['b'], Op.SetKey ['b'] ['k'] ['v'], Op.DeleteKey ['a'] ['k'],
          Op.GetKey ['a'] ['k'], Op.CreateNamespace ['a']]) ['a']).1 = (false, none)) :=
  ⟨by decide,
    tombstone_not_reusable exampleConfig memKV exampleConfig_apart memKV_frame ['a']
      [Op.CreateNamespace ['a'], Op.SetKey ['a'] ['k'] ['v'], Op.DeleteNamespace ['a'],
        Op.CreateNamespace ['b'], Op.SetKey ['b'] ['k'] ['v'], Op.DeleteKey ['a'] ['k'],
        Op.GetKey ['a'] ['k'], Op.CreateNamespace ['a']]
      exampleDeleting (by decide)⟩

/-- Counterexample of C20: the pairs (`a`, `b.c`) and (`a.b`, `c`) are different and
`generateNamespaceKey` gives both the same key. -/
theorem generateNamespaceKey_collision :
    generateNamespaceKey exampleConfig ['a'] ['b', '.', 'c'] =
      generateNamespaceKey exampleConfig ['a', '.', 'b'] ['c'] ∧
    ¬ ((['a'] : Bytes) = ['a', '.', 'b'] ∧ (['b', '.', 'c'] : Bytes) = ['c']) := by
  decide

/-- C20 (amended): `generateNamespaceKey` is injective on the pairs whose namespace
name does not contain the separator: for all names `n1`, `n2` without `.` and all keys
`k1`, `k2` (which may contain `.`), `generateNamespaceKey(n1,k1) =
generateNamespaceKey(n2,k2)` implies `n1 = n2` and `k1 = k2`. -/
theorem generateNamespaceKey_injective (c : Config) (n1 n2 k1 k2 : Bytes)
    (h1 : '.' ∉ n1) (h2 : '.' ∉ n2)
    (h : generateNamespaceKey c n1 k1 = generateNamespaceKey c n2 k2) :
    n1 = n2 ∧ k1 = k2 := by
  unfold generateNamespaceKey at h
  simp only [List.append_assoc, List.singleton_append] at h
  have h3 : n1 ++ '.' :: k1 = n2 ++ '.' :: k2 := by
    have := List.append_cancel_left h
    simpa using this
  exact List.eq_of_append_sep '.' n1 n2 k1 k2 h1 h2 h3

/-- Witness of C20 (amended): the name `ab` with the key `c.d`. -/
theorem generateNamespaceKey_injective_witness :
    ('.' ∉ (['a', 'b'] : Bytes) ∧ '.' ∉ (['a', 'b'] : Bytes) ∧
      generateNamespaceKey exampleConfig ['a', 'b'] ['c', '.', 'd'] =
        generateNamespaceKey exampleConfig ['a', 'b'] ['c', '.', 'd']) ∧
    ((['a', 'b'] : Bytes) = ['a', 'b'] ∧ (['c', '.', 'd'] : Bytes) = ['c', '.', 'd']) :=
  ⟨⟨by decide, by decide, rfl⟩,
    generateNamespaceKey_injective exampleConfig ['a', 'b'] ['a', 'b'] ['c', '.', 'd']
      ['c', '.', 'd'] (by decide) (by decide) rfl⟩

/-! ## Garbage collection -/

/-- C13: one garbage-collection cycle on the store with `a` marked `DELETING` and `b`
active, each with a data key.  The wipe of `a` runs from `generateNamespaceKey(a, "")` to
the end of the store: after the cycle, which reports no error, the data entry of the
active namespace `b` is gone; with the data range before the meta range the meta entry
of `b` is gone as well.  Hence `wipeNamespace(rw, a)` deletes a key that has neither the
prefix `generateNamespaceKey(a, "")` nor is `generateMetaKey(a)`. -/
theorem GarbageCollectionTick_wipes_active_namespace :
    (GarbageCollectionTick exampleConfig memService exampleGC).1 = none ∧
    memKV.Get exampleGC.db (generateNamespaceKey exampleConfig ['b'] ['k']) =
      (some ['v'], none) ∧
    memKV.Get (GarbageCollectionTick exampleConfig memService exampleGC).2.db
      (generateNamespaceKey exampleConfig ['b'] ['k']) = (none, some kv.ErrKeyNotFound) ∧
    Call.Delete (generateNamespaceKey exampleConfig ['b'] ['k']) ∈
      (wipeNamespace exampleConfig memKV exampleGC ['a']).2.calls ∧
    ¬ generateNamespaceKey exampleConfig ['a'] [] <+:
      generateNamespaceKey exampleConfig ['b'] ['k'] ∧
    (GarbageCollectionTick exampleConfigSwapped memService exampleGCSwapped).1 = none ∧
    memKV.Get exampleGCSwapped.db (generateMetaKey exampleConfigSwapped ['b']) =
      (some NamespaceExistsValue, none) ∧
    (GarbageCollectionTick exampleConfigSwapped memService exampleGCSwapped).2.db = [] := by
  refine ⟨by decide, by decide, by decide, by decide, by decide, by decide, by decide,
    by decide⟩

/-- C14: on the store with the active namespaces `a` and `z` only, where the data key
`k` of `a` holds the bytes `DELETING`, `deletedNamespaces` returns the name `ns.a.k`,
the whole data key, although the store holds no meta entry `generateMetaKey(ns.a.k)`;
and on the store with the key `meta/x`, which has not the prefix `generateMetaKey("")`,
it returns `meta/x`. -/
theorem deletedNamespaces_leaves_meta_range :
    (deletedNamespaces exampleConfig memKV.toReader exampleUserValue).1 =
      [generateNamespaceKey exampleConfig ['a'] ['k']] ∧
    ¬ generateMetaKey exampleConfig [] <+: generateNamespaceKey exampleConfig ['a'] ['k'] ∧
    memKV.Get exampleUserValue.db
        (generateMetaKey exampleConfig (generateNamespaceKey exampleConfig ['a'] ['k'])) =
      (none, some kv.ErrKeyNotFound) ∧
    (deletedNamespaces exampleConfig memKV.toReader exampleForeign).1 =
      [['m', 'e', 't', 'a', '/', 'x']] ∧
    ¬ generateMetaKey exampleConfig [] <+: ['m', 'e', 't', 'a', '/', 'x'] := by
  refine ⟨by decide, by decide, by decide, by decide, by decide⟩

/-- C17: on the store with the active namespaces `a` and `z` only, where no meta entry
holds `DELETING` and the data key `k` of `a` holds the bytes `DELETING`, one
garbage-collection cycle opens a batch and the data entry of `z` is gone after it; on
the store with the key `meta/x` the cycle opens a batch as well. -/
theorem GarbageCollectionTick_without_deleting_entry :
    memKV.Get exampleUserValue.db (generateMetaKey exampleConfig ['a']) =
      (some NamespaceExistsValue, none) ∧
    memKV.Get exampleUserValue.db (generateMetaKey exampleConfig ['z']) =
      (some NamespaceExistsValue, none) ∧
    (GarbageCollectionTick exampleConfig memService exampleUserValue).2.calls =
      [Call.NewIterator (generateMetaKey exampleConfig []) none, Call.RWBatch] ∧
    memKV.Get exampleUserValue.db (generateNamespaceKey exampleConfig ['z'] ['k']) =
      (some ['v'], none) ∧
    memKV.Get (GarbageCollectionTick exampleConfig memService exampleUserValue).2.db
      (generateNamespaceKey exampleConfig ['z'] ['k']) = (none, some kv.ErrKeyNotFound) ∧
    (GarbageCollectionTick exampleConfig memService exampleForeign).2.calls =
      [Call.NewIterator (generateMetaKey exampleConfig []) none, Call.RWBatch] := by
  refine ⟨by decide, by decide, by decide, by decide, by decide, by decide⟩

/-- Counterexample of C15: `a` and `b` are both marked `DELETING` and the `Delete` of
the data key of `a` fails.  The cycle returns the error of the batch of `a` and has
opened one batch only; the meta entry of `b` still holds `DELETING`, although the batch
of `b`, run on the same store, succeeds and removes it. -/
theorem garbageCollectNamespaces_aborts_on_failure :
    (deletedNamespaces exampleConfig
        (faultyService (generateNamespaceKey exampleConfig ['a'] ['k'])).toReader
        exampleTwoDeleting).1 = [['a'], ['b']] ∧
    (GarbageCollectionTick exampleConfig
        (faultyService (generateNamespaceKey exampleConfig ['a'] ['k']))
        exampleTwoDeleting).1 =
      some (Error.WithMessage testErr (namespaceMessage ['a'])) ∧
    (GarbageCollectionTick exampleConfig
        (faultyService (generateNamespaceKey exampleConfig ['a'] ['k']))
        exampleTwoDeleting).2.calls =
      [Call.NewIterator (generateMetaKey exampleConfig []) none, Call.RWBatch] ∧
    memKV.Get (GarbageCollectionTick exampleConfig
        (faultyService (generateNamespaceKey exampleConfig ['a'] ['k']))
        exampleTwoDeleting).2.db (generateMetaKey exampleConfig ['b']) =
      (some NamespaceDeletingValue, none) ∧
    (garbageCollectNamespaces exampleConfig
        (faultyService (generateNamespaceKey exampleConfig ['a'] ['k']))
        exampleTwoDeleting [['b']]).1 = none ∧
    memKV.Get (garbageCollectNamespaces exampleConfig
        (faultyService (generateNamespaceKey exampleConfig ['a'] ['k']))
        exampleTwoDeleting [['b']]).2.db (generateMetaKey exampleConfig ['b']) =
      (none, some kv.ErrKeyNotFound) := by
  refine ⟨by decide, by decide, by decide, by decide, by decide, by decide⟩

/-- C12: for every namespace name `n` whose meta entry holds `DELETING` at the start of
a garbage-collection cycle that reports no error (every `Delete` of the cycle succeeds,
every batch is committed; the store gives not-found after a `Delete`, leaves the other
keys alone, its iterator covers the keys under its lower bound and its batches are
all-or-nothing), after the cycle the meta entry `generateMetaKey(n)` is absent and every
key with the prefix `generateNamespaceKey(n, "")` is absent. -/
theorem GarbageCollectionTick_reclaims {σ : Type} (c : Config) (db : kv.Service σ)
    (w : World σ) (n : Bytes)
    (hRAD : kv.ReadAfterDelete db.toReadWriter) (hFrame : kv.DeleteFrame db.toReadWriter)
    (hIter : kv.IterCovers db.toReadWriter) (hAtomic : kv.AllOrNothing db)
    (hDel : db.Get w.db (generateMetaKey c n) = (some NamespaceDeletingValue, none))
    (hOk : (GarbageCollectionTick c db w).1 = none) :
    kv.Absent db.toReadWriter (GarbageCollectionTick c db w).2.db (generateMetaKey c n) ∧
    ∀ k, generateNamespaceKey c n [] <+: k →
      kv.Absent db.toReadWriter (GarbageCollectionTick c db w).2.db k := by
  have hmem := mem_deletedNamespaces c db.toReadWriter hIter w n hDel
  have hne : ¬ (deletedNamespaces c db.toReader w).1.length = 0 := by
    intro h0
    rw [List.length_eq_zero] at h0
    rw [h0] at hmem
    simp at hmem
  have hrun : GarbageCollectionTick c db w =
      garbageCollectNamespaces c db (deletedNamespaces c db.toReader w).2
        (deletedNamespaces c db.toReader w).1 := by
    unfold GarbageCollectionTick
    dsimp only
    rw [if_neg hne]
  rw [hrun] at hOk ⊢
  have hgc := garbageCollectNamespaces_absent c db hRAD hFrame hIter hAtomic _ _ hOk
  constructor
  · exact hgc _ (Or.inr ⟨n, hmem, Or.inr rfl⟩)
  · intro k hk
    exact hgc k (Or.inr ⟨n, hmem, Or.inl hk⟩)

/-- Witness of C12: the cycle on the store with `a` marked `DELETING` and `b` active. -/
theorem GarbageCollectionTick_reclaims_witness :
    (memKV.Get exampleGC.db (generateMetaKey exampleConfig ['a']) =
        (some NamespaceDeletingValue, none) ∧
      (GarbageCollectionTick exampleConfig memService exampleGC).1 = none) ∧
    (kv.Absent memKV (GarbageCollectionTick exampleConfig memService exampleGC).2.db
        (generateMetaKey exampleConfig ['a']) ∧
    ∀ k, generateNamespaceKey exampleConfig ['a'] [] <+: k →
      kv.Absent memKV (GarbageCollectionTick exampleConfig memService exampleGC).2.db k) :=
  ⟨⟨by decide, by decide⟩,
    GarbageCollectionTick_reclaims exampleConfig memService exampleGC ['a']
      memKV_readAfterDelete memKV_deleteFrame memKV_iterCovers memService_allOrNothing
      (by decide) (by decide)⟩

/-- C15 (amended): `garbageCollectNamespaces` stops at the first candidate whose batch
fails.  When the batches of the candidates `pre` have succeeded and the batch of the
next candidate `n` fails with the error `e`, `garbageCollectNamespaces` returns `e`
wrapped with the message `namespace: n`, the store is as the batch of `n` left it (with
all-or-nothing batches: as the batches of `pre` left it), and the batches opened are
those of `pre` and of `n`: no batch is opened for a later candidate of the cycle,
whatever the later candidates `post` are, and the result and the store are those of the
cycle whose candidate list ends at `n`. -/
theorem garbageCollectNamespaces_stops_at_failure {σ : Type} (c : Config)
    (db : kv.Service σ) (w : World σ) (pre : List Bytes) (n : Bytes) (post : List Bytes)
    (e : Error)
    (hPre : (garbageCollectNamespaces c db w pre).1 = none)
    (hFail : (db.RWBatch (garbageCollectNamespaces c db w pre).2.db (wipeBatch c n)).1 =
      some e) :
    (garbageCollectNamespaces c db w (pre ++ n :: post)).1 =
      some (Error.WithMessage e (namespaceMessage n)) ∧
    (garbageCollectNamespaces c db w (pre ++ n :: post)).2.db =
      (db.RWBatch (garbageCollectNamespaces c db w pre).2.db (wipeBatch c n)).2 ∧
    (garbageCollectNamespaces c db w (pre ++ n :: post)).2.calls =
      w.calls ++ List.replicate (pre.length + 1) Call.RWBatch ∧
    garbageCollectNamespaces c db w (pre ++ n :: post) =
      garbageCollectNamespaces c db w (pre ++ [n]) ∧
    (kv.AllOrNothing db →
      (garbageCollectNamespaces c db w (pre ++ n :: post)).2.db =
        (garbageCollectNamespaces c db w pre).2.db) := by
  rw [garbageCollectNamespaces_append c db pre w (n :: post) hPre,
    garbageCollectNamespaces_append c db pre w [n] hPre]
  have hcalls := garbageCollectNamespaces_calls c db pre w hPre
  generalize garbageCollectNamespaces c db w pre = r at hFail hcalls ⊢
  have hb : (dbRWBatch db r.2 (wipeBatch c n)).1 = some e := hFail
  have hpost : ∀ l, garbageCollectNamespaces c db r.2 (n :: l) =
      (some (Error.WithMessage e (namespaceMessage n)),
        (dbRWBatch db r.2 (wipeBatch c n)).2) := by
    intro l
    rw [garbageCollectNamespaces, hb]
  rw [hpost post, hpost []]
  refine ⟨rfl, rfl, ?_, rfl, ?_⟩
  · show r.2.calls ++ [Call.RWBatch] = _
    rw [hcalls, List.replicate_succ', List.append_assoc]
  · intro hAtomic
    show (db.RWBatch r.2.db (wipeBatch c n)).2 = r.2.db
    have h := hAtomic r.2.db (wipeBatch c n)
    rw [h] at hFail ⊢
    cases hf : (wipeBatch c n db.toReadWriter r.2.db).1 with
    | some err => rfl
    | none => rw [hf] at hFail; simp at hFail

/-- Witness of C15 (amended): `a`, `b` and `c` are all marked `DELETING`, so the
candidates of the cycle are `a`, `b` and `c`, and the `Delete` of the meta key of `b`
fails.  The batch of `a` succeeds, the batch of `b` fails, and the later candidate `c`
is in the store with its meta entry `DELETING`. -/
theorem garbageCollectNamespaces_stops_at_failure_witness :
    ((deletedNamespaces exampleConfig
        (faultyService (generateMetaKey exampleConfig ['b'])).toReader
        exampleThreeDeleting).1 = [['a']] ++ ['b'] :: [['c']] ∧
      memKV.Get exampleThreeDeleting.db (generateMetaKey exampleConfig ['c']) =
        (some NamespaceDeletingValue, none) ∧
      (garbageCollectNamespaces exampleConfig
        (faultyService (generateMetaKey exampleConfig ['b'])) exampleThreeDeleting
        [['a']]).1 = none ∧
      ((faultyService (generateMetaKey exampleConfig ['b'])).RWBatch
        (garbageCollectNamespaces exampleConfig
          (faultyService (generateMetaKey exampleConfig ['b'])) exampleThreeDeleting
          [['a']]).2.db (wipeBatch exampleConfig ['b'])).1 = some testErr) ∧
    ((garbageCollectNamespaces exampleConfig
        (faultyService (generateMetaKey exampleConfig ['b'])) exampleThreeDeleting
        ([['a']] ++ ['b'] :: [['c']])).1 =
      some (Error.WithMessage testErr (namespaceMessage ['b'])) ∧
    (garbageCollectNamespaces exampleConfig
        (faultyService (generateMetaKey exampleConfig ['b'])) exampleThreeDeleting
        ([['a']] ++ ['b'] :: [['c']])).2.db =
      ((faultyService (generateMetaKey exampleConfig ['b'])).RWBatch
        (garbageCollectNamespaces exampleConfig
          (faultyService (generateMetaKey exampleConfig ['b'])) exampleThreeDeleting
          [['a']]).2.db (wipeBatch exampleConfig ['b'])).2 ∧
    (garbageCollectNamespaces exampleConfig
        (faultyService (generateMetaKey exampleConfig ['b'])) exampleThreeDeleting
        ([['a']] ++ ['b'] :: [['c']])).2.calls =
      exampleThreeDeleting.calls ++ List.replicate ([['a']].length + 1) Call.RWBatch ∧
    garbageCollectNamespaces exampleConfig
        (faultyService (generateMetaKey exampleConfig ['b'])) exampleThreeDeleting
        ([['a']] ++ ['b'] :: [['c']]) =
      garbageCollectNamespaces exampleConfig
        (faultyService (generateMetaKey exampleConfig ['b'])) exampleThreeDeleting
        ([['a']] ++ [['b']]) ∧
    (kv.AllOrNothing (faultyService (generateMetaKey exampleConfig ['b'])) →
      (garbageCollectNamespaces exampleConfig
        (faultyService (generateMetaKey exampleConfig ['b'])) exampleThreeDeleting
        ([['a']] ++ ['b'] :: [['c']])).2.db =
      (garbageCollectNamespaces exampleConfig
        (faultyService (generateMetaKey exampleConfig ['b'])) exampleThreeDeleting
        [['a']]).2.db)) :=
  ⟨⟨by decide, by decide, by decide, by decide⟩,
    garbageCollectNamespaces_stops_at_failure exampleConfig
      (faultyService (generateMetaKey exampleConfig ['b'])) exampleThreeDeleting
      [['a']] ['b'] [['c']] testErr (by decide) (by decide)⟩

/-- C16: when the `Delete` of a key that the iterator of `wipeNamespace(rw, n)` yields
fails with the error `e` (the iterator yields the entries `done`, then `bad`, then
`later`; the `Delete` of each key of `done` succeeds and the `Delete` of the key of `bad`
fails with `e`), `wipeNamespace` returns `e` at once: the calls it has issued are exactly
the opening of the iterator, the `Delete` of each key of `done` and the failed `Delete`
of the key of `bad`; no `Delete` of a key of `later` and no `Delete` of
`generateMetaKey(n)` follows (so no `Delete` of the meta key is issued at all when the
keys of `done` and `bad` are not the meta key).  With all-or-nothing batches
`garbageCollectNamespaces` then returns `e` wrapped with the message `namespace: n` after
that one batch, and the store is the store at which the batch of `n` started: what
`Get` returns for the meta key of `n`, for its data keys and for every other key is
unchanged, so a meta entry that held `DELETING` still holds it; and the cycle whose
earlier candidates `pre` have led to that store ends with that error and that store. -/
theorem wipeNamespace_failure_keeps_store {σ : Type} (c : Config) (db : kv.Service σ)
    (w : World σ) (n : Bytes) (rest : List Bytes) (done : List (Bytes × Bytes))
    (bad : Bytes × Bytes) (later : List (Bytes × Bytes)) (e : Error)
    (hAtomic : kv.AllOrNothing db)
    (hIter : db.NewIterator w.db (generateNamespaceKey c n []) none = done ++ bad :: later)
    (hDone : kv.DeletesSucceed db.toReadWriter w.db (done.map Prod.fst))
    (hBad : (db.Delete (kv.deleteAll db.toReadWriter w.db (done.map Prod.fst)) bad.1).1 =
      some e) :
    wipeNamespace c db.toReadWriter { db := w.db, calls := [] } n =
      (some e,
        { db := (db.Delete (kv.deleteAll db.toReadWriter w.db (done.map Prod.fst)) bad.1).2,
          calls := Call.NewIterator (generateNamespaceKey c n []) none ::
            (done.map (fun x => Call.Delete x.1) ++ [Call.Delete bad.1]) }) ∧
    ((∀ x ∈ done, x.1 ≠ generateMetaKey c n) → bad.1 ≠ generateMetaKey c n →
      Call.Delete (generateMetaKey c n) ∉
        (wipeNamespace c db.toReadWriter { db := w.db, calls := [] } n).2.calls) ∧
    garbageCollectNamespaces c db w (n :: rest) =
      (some (Error.WithMessage e (namespaceMessage n)),
        { db := w.db, calls := w.calls ++ [Call.RWBatch] }) ∧
    (∀ k, db.Get (garbageCollectNamespaces c db w (n :: rest)).2.db k = db.Get w.db k) ∧
    (db.Get w.db (generateMetaKey c n) = (some NamespaceDeletingValue, none) →
      db.Get (garbageCollectNamespaces c db w (n :: rest)).2.db (generateMetaKey c n) =
        (some NamespaceDeletingValue, none)) ∧
    ∀ (w0 : World σ) (pre : List Bytes),
      (deletedNamespaces c db.toReader w0).1 = pre ++ n :: rest →
      (garbageCollectNamespaces c db (deletedNamespaces c db.toReader w0).2 pre).1 = none →
      (garbageCollectNamespaces c db (deletedNamespaces c db.toReader w0).2 pre).2.db =
        w.db →
      (GarbageCollectionTick c db w0).1 =
        some (Error.WithMessage e (namespaceMessage n)) ∧
      (GarbageCollectionTick c db w0).2.db = w.db := by
  have hw := wipeNamespace_stops c db.toReadWriter w.db n done bad later e hIter hDone hBad
  have hw1 : ∀ s, s = w.db →
      (wipeNamespace c db.toReadWriter { db := s, calls := [] } n).1 = some e := by
    intro s hs
    rw [hs, hw]
  have hgc := garbageCollectNamespaces_failed_batch c db hAtomic w n rest e (hw1 _ rfl)
  refine ⟨hw, ?_, hgc, ?_, ?_, ?_⟩
  · intro hne hbad hmem
    rw [hw] at hmem
    simp only [List.mem_cons, List.mem_append, List.mem_map, List.mem_singleton,
      Call.Delete.injEq, reduceCtorEq, false_or, List.not_mem_nil, or_false] at hmem
    rcases hmem with ⟨x, hx, hxk⟩ | hk
    · exact hne x hx hxk
    · exact hbad hk.symm
  · intro k
    rw [hgc]
  · intro hDel
    rw [hgc]
    exact hDel
  · intro w0 pre hNames hPre hDb
    have hne : ¬ (deletedNamespaces c db.toReader w0).1.length = 0 := by
      rw [hNames]
      simp
    have hrun : GarbageCollectionTick c db w0 =
        garbageCollectNamespaces c db (deletedNamespaces c db.toReader w0).2
          (pre ++ n :: rest) := by
      unfold GarbageCollectionTick
      dsimp only
      rw [if_neg hne, hNames]
    rw [hrun, garbageCollectNamespaces_append c db pre _ (n :: rest) hPre,
      garbageCollectNamespaces_failed_batch c db hAtomic _ n rest e (hw1 _ hDb)]
    exact ⟨rfl, hDb⟩

/-- Witness of C16: `a` and `b` are marked `DELETING`, `a` has the data keys `j`, `k`
and `m`, and the `Delete` of the data key `k` of `a` fails.  The iterator yields `j`,
`k`, `m`; the calls of `wipeNamespace` are the opening of the iterator, the `Delete` of
`j` and the failed `Delete` of `k`: neither `m` nor the meta key of `a` is deleted. -/
theorem wipeNamespace_failure_keeps_store_witness :
    ((faultyService (generateNamespaceKey exampleConfig ['a'] ['k'])).NewIterator
        exampleThreeKeys.db (generateNamespaceKey exampleConfig ['a'] []) none =
        [(generateNamespaceKey exampleConfig ['a'] ['j'], ['u'])] ++
          (generateNamespaceKey exampleConfig ['a'] ['k'], ['v']) ::
          [(generateNamespaceKey exampleConfig ['a'] ['m'], ['w'])] ∧
      kv.DeletesSucceed
        (faultyService (generateNamespaceKey exampleConfig ['a'] ['k'])).toReadWriter
        exampleThreeKeys.db [generateNamespaceKey exampleConfig ['a'] ['j']] ∧
      ((faultyService (generateNamespaceKey exampleConfig ['a'] ['k'])).Delete
        (kv.deleteAll
          (faultyService (generateNamespaceKey exampleConfig ['a'] ['k'])).toReadWriter
          exampleThreeKeys.db [generateNamespaceKey exampleConfig ['a'] ['j']])
        (generateNamespaceKey exampleConfig ['a'] ['k'])).1 = some testErr ∧
      (deletedNamespaces exampleConfig
        (faultyService (generateNamespaceKey exampleConfig ['a'] ['k'])).toReader
        exampleThreeKeys).1 = [] ++ ['a'] :: [['b']]) ∧
    (wipeNamespace exampleConfig
        (faultyService (generateNamespaceKey exampleConfig ['a'] ['k'])).toReadWriter
        { db := exampleThreeKeys.db, calls := [] } ['a']).1 = some testErr ∧
    (wipeNamespace exampleConfig
        (faultyService (generateNamespaceKey exampleConfig ['a'] ['k'])).toReadWriter
        { db := exampleThreeKeys.db, calls := [] } ['a']).2.calls =
      [Call.NewIterator (generateNamespaceKey exampleConfig ['a'] []) none,
        Call.Delete (generateNamespaceKey exampleConfig ['a'] ['j']),
        Call.Delete (generateNamespaceKey exampleConfig ['a'] ['k'])] ∧
    Call.Delete (generateMetaKey exampleConfig ['a']) ∉
      (wipeNamespace exampleConfig
        (faultyService (generateNamespaceKey exampleConfig ['a'] ['k'])).toReadWriter
        { db := exampleThreeKeys.db, calls := [] } ['a']).2.calls ∧
    (garbageCollectNamespaces exampleConfig
        (faultyService (generateNamespaceKey exampleConfig ['a'] ['k']))
        exampleThreeKeys (['a'] :: [['b']])).1 =
      some (Error.WithMessage testErr (namespaceMessage ['a'])) ∧
    (garbageCollectNamespaces exampleConfig
        (faultyService (generateNamespaceKey exampleConfig ['a'] ['k']))
        exampleThreeKeys (['a'] :: [['b']])).2.db = exampleThreeKeys.db ∧
    (garbageCollectNamespaces exampleConfig
        (faultyService (generateNamespaceKey exampleConfig ['a'] ['k']))
        exampleThreeKeys (['a'] :: [['b']])).2.calls =
      exampleThreeKeys.calls ++ [Call.RWBatch] ∧
    (faultyService (generateNamespaceKey exampleConfig ['a'] ['k'])).Get
        (garbageCollectNamespaces exampleConfig
          (faultyService (generateNamespaceKey exampleConfig ['a'] ['k']))
          exampleThreeKeys (['a'] :: [['b']])).2.db (generateMetaKey exampleConfig ['a']) =
      (some NamespaceDeletingValue, none) ∧
    (faultyService (generateNamespaceKey exampleConfig ['a'] ['k'])).Get
        (garbageCollectNamespaces exampleConfig
          (faultyService (generateNamespaceKey exampleConfig ['a'] ['k']))
          exampleThreeKeys (['a'] :: [['b']])).2.db
        (generateNamespaceKey exampleConfig ['a'] ['j']) = (some ['u'], none) ∧
    (GarbageCollectionTick exampleConfig
        (faultyService (generateNamespaceKey exampleConfig ['a'] ['k']))
        exampleThreeKeys).1 =
      some (Error.WithMessage testErr (namespaceMessage ['a'])) ∧
    (GarbageCollectionTick exampleConfig
        (faultyService (generateNamespaceKey exampleConfig ['a'] ['k']))
        exampleThreeKeys).2.db = exampleThreeKeys.db :=
  have h := wipeNamespace_failure_keeps_store exampleConfig
    (faultyService (generateNamespaceKey exampleConfig ['a'] ['k']))
    exampleThreeKeys ['a'] [['b']]
    [(generateNamespaceKey exampleConfig ['a'] ['j'], ['u'])]
    (generateNamespaceKey exampleConfig ['a'] ['k'], ['v'])
    [(generateNamespaceKey exampleConfig ['a'] ['m'], ['w'])] testErr
    (faultyService_allOrNothing _) (by decide) ⟨by decide, trivial⟩ (by decide)
  ⟨⟨by decide, ⟨by decide, trivial⟩, by decide, by decide⟩,
    congrArg (fun r => r.1) h.1,
    congrArg (fun r => r.2.calls) h.1,
    h.2.1 (by decide) (by decide),
    congrArg (fun r => r.1) h.2.2.1,
    congrArg (fun r => r.2.db) h.2.2.1,
    congrArg (fun r => r.2.calls) h.2.2.1,
    h.2.2.2.2.1 (by decide),
    (h.2.2.2.1 _).trans (by decide),
    h.2.2.2.2.2 exampleThreeKeys [] (by decide) (by decide) rfl⟩

/-- C18: no key leaks across a delete-and-recreate of a namespace.  For every name `n`
and every store content (whatever was written to `n` while it was active), after a
`DeleteNamespace(n)` that succeeds, a garbage-collection cycle that reports no error and
a `CreateNamespace(n)` whose write succeeds, `CreateNamespace(n)` has succeeded and
`GetKey(n,k)` returns no value and the store's not-found error for every key `k`.  The
store gives per-key read-after-write and not-found after a `Delete`, a write of one key
leaves the other keys alone, the iterator covers the keys under its lower bound, batches
are all-or-nothing, and the prefixes keep meta keys and data keys apart. -/
theorem no_leak_across_recreate {σ : Type} (c : Config) (db : kv.Service σ)
    (w w1 w2 : World σ) (n : Bytes)
    (hApart : c.Apart)
    (hRAW : kv.ReadAfterWrite db.toReadWriter) (hSetFrame : kv.SetFrame db.toReadWriter)
    (hRAD : kv.ReadAfterDelete db.toReadWriter) (hFrame : kv.DeleteFrame db.toReadWriter)
    (hIter : kv.IterCovers db.toReadWriter) (hAtomic : kv.AllOrNothing db)
    (hDeleted : DeleteNamespace c db.toReadWriter w n = (none, w1))
    (hCycle : GarbageCollectionTick c db w1 = (none, w2))
    (hSet : (db.Set w2.db (generateMetaKey c n) NamespaceExistsValue).1 = none) :
    (CreateNamespace c db.toReadWriter w2 n).1 = none ∧
    ∀ k, ∃ e, errors.Is e kv.ErrKeyNotFound = true ∧
      (GetKey c db.toReadWriter (CreateNamespace c db.toReadWriter w2 n).2 n k).1 =
        (none, some e) := by
  have hd1 : (DeleteNamespace c db.toReadWriter w n).1 = none := by rw [hDeleted]
  obtain ⟨hSet1, hst1⟩ := DeleteNamespace_success c db.toReadWriter w n hd1
  have hw1 : db.Get w1.db (generateMetaKey c n) = (some NamespaceDeletingValue, none) := by
    have : w1 = (DeleteNamespace c db.toReadWriter w n).2 := by rw [hDeleted]
    rw [this, hst1]
    exact hRAW _ _ _ hSet1
  have hc1 : (GarbageCollectionTick c db w1).1 = none := by rw [hCycle]
  have habs := GarbageCollectionTick_absent c db w1 n hRAD hFrame hIter hAtomic hw1 hc1
  rw [hCycle] at habs
  obtain ⟨hres, hdb⟩ := CreateNamespace_of_absent c db.toReadWriter w2 n habs.1 hSet
  refine ⟨hres, fun k => ?_⟩
  obtain ⟨e, he, hk⟩ := habs.2 _ (generateNamespaceKey_starts c n k)
  have hmeta : db.Get (CreateNamespace c db.toReadWriter w2 n).2.db (generateMetaKey c n) =
      (some NamespaceExistsValue, none) := by
    rw [hdb]
    exact hRAW _ _ _ hSet
  have hdata : db.Get (CreateNamespace c db.toReadWriter w2 n).2.db
      (generateNamespaceKey c n k) = (none, some e) := by
    rw [hdb, hSetFrame _ _ _ _ hSet
      (fun h => generateMetaKey_ne_generateNamespaceKey c hApart n n k h.symm)]
    exact hk
  exact ⟨e, he, by rw [GetKey_active_error c db.toReadWriter _ n k none e hmeta hdata]⟩

/-- Witness of C18: the active namespace `a`, whose key `k` holds `old`, is deleted,
collected and created again. -/
theorem no_leak_across_recreate_witness :
    (DeleteNamespace exampleConfig memService.toReadWriter exampleActive ['a'] =
        (none, (DeleteNamespace exampleConfig memService.toReadWriter exampleActive ['a']).2) ∧
      GarbageCollectionTick exampleConfig memService
          (DeleteNamespace exampleConfig memService.toReadWriter exampleActive ['a']).2 =
        (none, (GarbageCollectionTick exampleConfig memService
          (DeleteNamespace exampleConfig memService.toReadWriter exampleActive ['a']).2).2)) ∧
    ((CreateNamespace exampleConfig memService.toReadWriter
        (GarbageCollectionTick exampleConfig memService
          (DeleteNamespace exampleConfig memService.toReadWriter exampleActive ['a']).2).2
        ['a']).1 = none ∧
    ∀ k, ∃ e, errors.Is e kv.ErrKeyNotFound = true ∧
      (GetKey exampleConfig memService.toReadWriter
        (CreateNamespace exampleConfig memService.toReadWriter
          (GarbageCollectionTick exampleConfig memService
            (DeleteNamespace exampleConfig memService.toReadWriter exampleActive ['a']).2).2
          ['a']).2 ['a'] k).1 = (none, some e)) :=
  ⟨⟨Prod.ext (by decide) rfl, Prod.ext (by decide) rfl⟩,
    no_leak_across_recreate exampleConfig memService exampleActive
      (DeleteNamespace exampleConfig memService.toReadWriter exampleActive ['a']).2
      (GarbageCollectionTick exampleConfig memService
        (DeleteNamespace exampleConfig memService.toReadWriter exampleActive ['a']).2).2
      ['a'] exampleConfig_apart memKV_readAfterWrite memKV_setFrame memKV_readAfterDelete
      memKV_deleteFrame memKV_iterCovers memService_allOrNothing
      (Prod.ext (by decide) rfl) (Prod.ext (by decide) rfl) (by decide)⟩

/-! ## Keys and the error mapping -/

/-- C21: `generateMetaKey` is injective, and the name extraction of the discovery scan
inverts it: `generateMetaKey(n1) = generateMetaKey(n2)` implies `n1 = n2`, and trimming
the prefix `MetaPrefix + "."` from `generateMetaKey(n)`, as `deletedNamespaces` does,
gives back `n`. -/
theorem generateMetaKey_injective_and_trimmed (c : Config) :
    (∀ n1 n2, generateMetaKey c n1 = generateMetaKey c n2 → n1 = n2) ∧
    ∀ n, strings.TrimPrefix (generateMetaKey c n) (c.MetaPrefix ++ ['.']) = n := by
  constructor
  · intro n1 n2 h
    exact generateMetaKey_injective c n1 n2 h
  · intro n
    unfold generateMetaKey
    exact strings.TrimPrefix_append _ n

/-- C22: meta keys and data keys are two disjoint families, for prefixes such that
neither of `MetaPrefix + "."` and `NamespacePrefix + "."` is a prefix of the other:
`generateMetaKey(n)` is different from `generateNamespaceKey(n', k)` for all `n`, `n'`,
`k`; no data key has the meta-range prefix `generateMetaKey("")`; and no meta key has the
data-range prefix `NamespacePrefix + "."`. -/
theorem meta_and_data_keys_disjoint (c : Config) (hApart : c.Apart) :
    (∀ n ns k, generateMetaKey c n ≠ generateNamespaceKey c ns k) ∧
    (∀ ns k, ¬ generateMetaKey c [] <+: generateNamespaceKey c ns k) ∧
    (∀ n, ¬ (c.NamespacePrefix ++ ['.']) <+: generateMetaKey c n) := by
  refine ⟨fun n ns k => generateMetaKey_ne_generateNamespaceKey c hApart n ns k, ?_, ?_⟩
  · intro ns k
    have h0 : generateMetaKey c [] = c.MetaPrefix ++ ['.'] := by
      unfold generateMetaKey
      rw [List.append_nil]
    rw [h0]
    exact Config.Apart.not_meta_range c hApart ns k
  · intro n
    exact Config.Apart.not_data_range c hApart n

/-- Witness of C22: the prefixes `meta` and `ns`. -/
theorem meta_and_data_keys_disjoint_witness :
    exampleConfig.Apart ∧
    ((∀ n ns k, generateMetaKey exampleConfig n ≠ generateNamespaceKey exampleConfig ns k) ∧
    (∀ ns k, ¬ generateMetaKey exampleConfig [] <+:
      generateNamespaceKey exampleConfig ns k) ∧
    (∀ n, ¬ (exampleConfig.NamespacePrefix ++ ['.']) <+:
      generateMetaKey exampleConfig n)) :=
  ⟨exampleConfig_apart, meta_and_data_keys_disjoint exampleConfig exampleConfig_apart⟩

/-- C23: `writeErrorResponse` maps, for every error `err` and fallback code `code`,
`ErrNamespaceAlreadyExists` to 409, `ErrNamespaceDeleting` to 400, `ErrNamespaceNotFound`
to 404 and `ErrKeyNotFound` to 404, whatever the fallback code is; every other `err`,
nil included, to `code` when `code` is not 0 and to 500 when `code` is 0. -/
theorem writeErrorResponse_mapping (err : Option Error) (code : Int) :
    endpoints.writeErrorResponse (some ErrNamespaceAlreadyExists) code = 409 ∧
    endpoints.writeErrorResponse (some ErrNamespaceDeleting) code = 400 ∧
    endpoints.writeErrorResponse (some ErrNamespaceNotFound) code = 404 ∧
    endpoints.writeErrorResponse (some Namespace.ErrKeyNotFound) code = 404 ∧
    (err ≠ some ErrNamespaceAlreadyExists → err ≠ some ErrNamespaceDeleting →
      err ≠ some ErrNamespaceNotFound → err ≠ some Namespace.ErrKeyNotFound →
      (code ≠ 0 → endpoints.writeErrorResponse err code = code) ∧
      (code = 0 → endpoints.writeErrorResponse err code = 500)) ∧
    (code ≠ 0 → endpoints.writeErrorResponse none code = code) ∧
    endpoints.writeErrorResponse none 0 = 500 := by
  refine ⟨?_, ?_, ?_, ?_, ?_, ?_, by decide⟩
  · unfold endpoints.writeErrorResponse
    rw [if_pos rfl]
    rfl
  · unfold endpoints.writeErrorResponse
    rw [if_neg (by decide), if_pos rfl]
    rfl
  · unfold endpoints.writeErrorResponse
    rw [if_neg (by decide), if_neg (by decide), if_pos rfl]
    rfl
  · unfold endpoints.writeErrorResponse
    rw [if_neg (by decide), if_neg (by decide), if_neg (by decide), if_pos rfl]
    rfl
  · intro h1 h2 h3 h4
    unfold endpoints.writeErrorResponse
    rw [if_neg h1, if_neg h2, if_neg h3, if_neg h4]
    constructor
    · intro hc
      rw [if_pos hc]
    · intro hc
      rw [if_neg (not_not.mpr hc)]
      rfl
  · intro hc
    unfold endpoints.writeErrorResponse
    simp [hc]

/-! ## Frame properties and store failures -/

/-- C24: store failures are surfaced unchanged.  When the read of the meta entry fails
with an error `e` that is not not-found, each of `CreateNamespace`, `DeleteNamespace`,
`GetKey`, `SetKey` and `DeleteKey` returns `e`, its only call on the store is that read
and the store is unchanged; and when the physical write of the operation (the `Set` of
`CreateNamespace`, `DeleteNamespace` and `SetKey`, the `Delete` of `DeleteKey`) fails with
an error `e`, the operation returns `e`. -/
theorem store_failures_surfaced {σ : Type} (c : Config) (db : kv.ReadWriter σ)
    (w : World σ) (name key value : Bytes) (v : Option Bytes) (e : Error) :
    (db.Get w.db (generateMetaKey c name) = (v, some e) →
      errors.Is e kv.ErrKeyNotFound = false →
      CreateNamespace c db w name =
        (some e, { db := w.db, calls := w.calls ++ [Call.Get (generateMetaKey c name)] }) ∧
      DeleteNamespace c db w name =
        (some e, { db := w.db, calls := w.calls ++ [Call.Get (generateMetaKey c name)] }) ∧
      GetKey c db w name key =
        ((none, some e),
          { db := w.db, calls := w.calls ++ [Call.Get (generateMetaKey c name)] }) ∧
      SetKey c db w name key value =
        (some e, { db := w.db, calls := w.calls ++ [Call.Get (generateMetaKey c name)] }) ∧
      DeleteKey c db w name key =
        (some e, { db := w.db, calls := w.calls ++ [Call.Get (generateMetaKey c name)] })) ∧
    (kv.Absent db w.db (generateMetaKey c name) →
      (db.Set w.db (generateMetaKey c name) NamespaceExistsValue).1 = some e →
      (CreateNamespace c db w name).1 = some e) ∧
    (db.Get w.db (generateMetaKey c name) = (some NamespaceExistsValue, none) →
      (db.Set w.db (generateMetaKey c name) NamespaceDeletingValue).1 = some e →
      (DeleteNamespace c db w name).1 = some e) ∧
    (db.Get w.db (generateMetaKey c name) = (some NamespaceExistsValue, none) →
      (db.Set w.db (generateNamespaceKey c name key) value).1 = some e →
      (SetKey c db w name key value).1 = some e) ∧
    (db.Get w.db (generateMetaKey c name) = (some NamespaceExistsValue, none) →
      (db.Delete w.db (generateNamespaceKey c name key)).1 = some e →
      (DeleteKey c db w name key).1 = some e) := by
  refine ⟨?_, ?_, ?_, ?_, ?_⟩
  · intro hg he
    have ha := IsActive_of_error c db w name v e hg he
    refine ⟨?_, ?_, ?_, ?_, ?_⟩
    · simp [CreateNamespace, dbGet, hg, he]
    · simp [DeleteNamespace, dbGet, hg, he]
    · simp [GetKey, ha]
    · simp [SetKey, ha]
    · simp [DeleteKey, ha]
  · intro habs hs
    obtain ⟨e0, he0, hg⟩ := habs
    simp [CreateNamespace, dbGet, dbSet, hg, he0, hs, bytes.Equal_none_exists,
      bytes.Equal_none_deleting]
  · intro hg hs
    simp [DeleteNamespace, dbGet, dbSet, hg, hs, bytes.Equal_exists_deleting]
  · intro hg hs
    have ha := IsActive_of_value c db w name _ hg
    rw [bytes.Equal_self] at ha
    simp [SetKey, ha, dbSet, hs]
  · intro hg hs
    have ha := IsActive_of_value c db w name _ hg
    rw [bytes.Equal_self] at ha
    simp [DeleteKey, ha, dbDelete, hs]

/-- Witness of C24: on the store whose every `Get` fails with `testErr` the five
operations return `testErr` after the one read; on the store whose every `Set` and
`Delete` fails with `testErr` the four writing operations return `testErr`. -/
theorem store_failures_surfaced_witness :
    (CreateNamespace exampleConfig (failingKV (some testErr) none none) exampleActive ['a'] =
        (some testErr,
          { db := exampleActive.db,
            calls := exampleActive.calls ++ [Call.Get (generateMetaKey exampleConfig ['a'])] }) ∧
      DeleteNamespace exampleConfig (failingKV (some testErr) none none) exampleActive ['a'] =
        (some testErr,
          { db := exampleActive.db,
            calls := exampleActive.calls ++ [Call.Get (generateMetaKey exampleConfig ['a'])] }) ∧
      GetKey exampleConfig (failingKV (some testErr) none none) exampleActive ['a'] ['k'] =
        ((none, some testErr),
          { db := exampleActive.db,
            calls := exampleActive.calls ++ [Call.Get (generateMetaKey exampleConfig ['a'])] }) ∧
      SetKey exampleConfig (failingKV (some testErr) none none) exampleActive ['a'] ['k']
          ['v'] =
        (some testErr,
          { db := exampleActive.db,
            calls := exampleActive.calls ++ [Call.Get (generateMetaKey exampleConfig ['a'])] }) ∧
      DeleteKey exampleConfig (failingKV (some testErr) none none) exampleActive ['a'] ['k'] =
        (some testErr,
          { db := exampleActive.db,
            calls := exampleActive.calls ++
              [Call.Get (generateMetaKey exampleConfig ['a'])] })) ∧
    (CreateNamespace exampleConfig (failingKV none (some testErr) (some testErr))
        exampleActive ['b']).1 = some testErr ∧
    (DeleteNamespace exampleConfig (failingKV none (some testErr) (some testErr))
        exampleActive ['a']).1 = some testErr ∧
    (SetKey exampleConfig (failingKV none (some testErr) (some testErr))
        exampleActive ['a'] ['k'] ['v']).1 = some testErr ∧
    (DeleteKey exampleConfig (failingKV none (some testErr) (some testErr))
        exampleActive ['a'] ['k']).1 = some testErr :=
  ⟨(store_failures_surfaced exampleConfig (failingKV (some testErr) none none)
      exampleActive ['a'] ['k'] ['v'] none testErr).1 (by decide) (by decide),
    (store_failures_surfaced exampleConfig (failingKV none (some testErr) (some testErr))
      exampleActive ['b'] ['k'] ['v'] none testErr).2.1
      ⟨kv.ErrKeyNotFound, by decide, by decide⟩ (by decide),
    (store_failures_surfaced exampleConfig (failingKV none (some testErr) (some testErr))
      exampleActive ['a'] ['k'] ['v'] none testErr).2.2.1 (by decide) (by decide),
    (store_failures_surfaced exampleConfig (failingKV none (some testErr) (some testErr))
      exampleActive ['a'] ['k'] ['v'] none testErr).2.2.2.1 (by decide) (by decide),
    (store_failures_surfaced exampleConfig (failingKV none (some testErr) (some testErr))
      exampleActive ['a'] ['k'] ['v'] none testErr).2.2.2.2 (by decide) (by decide)⟩

/-- C27: `DeleteNamespace` changes nothing but the one meta entry.  On a store whose
`Set` of one key leaves the other keys alone, what `Get` returns after
`DeleteNamespace(n)` is what it returned before, for every key other than
`generateMetaKey(n)`; in particular (prefixes keeping meta keys and data keys apart)
every data entry `generateNamespaceKey(n, key)` reads after the call as before it. -/
theorem DeleteNamespace_frame {σ : Type} (c : Config) (db : kv.ReadWriter σ)
    (w : World σ) (n : Bytes) (hApart : c.Apart) (hFrame : kv.Frame db) :
    (∀ k, k ≠ generateMetaKey c n →
      db.Get (DeleteNamespace c db w n).2.db k = db.Get w.db k) ∧
    (∀ key, db.Get (DeleteNamespace c db w n).2.db (generateNamespaceKey c n key) =
      db.Get w.db (generateNamespaceKey c n key)) := by
  have h1 : ∀ k, k ≠ generateMetaKey c n →
      db.Get (DeleteNamespace c db w n).2.db k = db.Get w.db k := by
    intro k hk
    rcases DeleteNamespace_db c db w n with h | h
    · rw [h]
    · rw [h, hFrame.1 _ _ _ _ hk]
  refine ⟨h1, fun key => h1 _ ?_⟩
  exact fun h => generateMetaKey_ne_generateNamespaceKey c hApart n n key h.symm

/-- Witness of C27: the active namespace `a` with its data key `k` is deleted; the data
entry is still there. -/
theorem DeleteNamespace_frame_witness :
    (exampleConfig.Apart ∧
      (DeleteNamespace exampleConfig memKV exampleActive ['a']).1 = none ∧
      memKV.Get (DeleteNamespace exampleConfig memKV exampleActive ['a']).2.db
        (generateNamespaceKey exampleConfig ['a'] ['k']) = (some ['o', 'l', 'd'], none)) ∧
    ((∀ k, k ≠ generateMetaKey exampleConfig ['a'] →
      memKV.Get (DeleteNamespace exampleConfig memKV exampleActive ['a']).2.db k =
        memKV.Get exampleActive.db k) ∧
    (∀ key, memKV.Get (DeleteNamespace exampleConfig memKV exampleActive ['a']).2.db
        (generateNamespaceKey exampleConfig ['a'] key) =
      memKV.Get exampleActive.db (generateNamespaceKey exampleConfig ['a'] key))) :=
  ⟨⟨exampleConfig_apart, by decide, by decide⟩,
    DeleteNamespace_frame exampleConfig memKV exampleActive ['a'] exampleConfig_apart
      memKV_frame⟩

/-- C28: for namespace names without the separator `.`, the data-key ranges of distinct
namespaces are disjoint.  For all names `n1 ≠ n2` without `.` and all keys `k1`, `k2`
(which may contain `.`), `generateNamespaceKey(n2,k2)` has not the prefix
`generateNamespaceKey(n1, "")`, hence `generateNamespaceKey(n1,k1)` is different from
`generateNamespaceKey(n2,k2)`; and (on a store whose write of one key leaves the other
keys alone, prefixes keeping meta keys and data keys apart) neither `SetKey(n1,k1,v)` nor
`DeleteKey(n1,k1)` changes what `GetKey(n2,k2)` returns. -/
theorem namespaces_disjoint {σ : Type} (c : Config) (db : kv.ReadWriter σ) (w : World σ)
    (n1 n2 k1 k2 v : Bytes) (h1 : '.' ∉ n1) (h2 : '.' ∉ n2) (hne : n1 ≠ n2)
    (hApart : c.Apart) (hFrame : kv.Frame db) :
    ¬ generateNamespaceKey c n1 [] <+: generateNamespaceKey c n2 k2 ∧
    generateNamespaceKey c n1 k1 ≠ generateNamespaceKey c n2 k2 ∧
    (GetKey c db (SetKey c db w n1 k1 v).2 n2 k2).1 = (GetKey c db w n2 k2).1 ∧
    (GetKey c db (DeleteKey c db w n1 k1).2 n2 k2).1 = (GetKey c db w n2 k2).1 := by
  have hp : ¬ generateNamespaceKey c n1 [] <+: generateNamespaceKey c n2 k2 := by
    rintro ⟨t, ht⟩
    unfold generateNamespaceKey at ht
    simp only [List.append_assoc, List.singleton_append, List.nil_append,
      List.append_nil, List.cons_append] at ht
    have h3 : n1 ++ '.' :: t = n2 ++ '.' :: k2 := by
      have := List.append_cancel_left ht
      simpa using this
    exact hne (List.eq_of_append_sep '.' n1 n2 t k2 h1 h2 h3).1
  have hk : generateNamespaceKey c n1 k1 ≠ generateNamespaceKey c n2 k2 := by
    intro heq
    apply hp
    rw [← heq]
    exact generateNamespaceKey_starts c n1 k1
  refine ⟨hp, hk, ?_, ?_⟩
  · apply GetKey_congr
    · rcases SetKey_db c db w n1 k1 v with h | h
      · rw [h]
      · rw [h, hFrame.1 _ _ _ _
          (generateMetaKey_ne_generateNamespaceKey c hApart n2 n1 k1)]
    · rcases SetKey_db c db w n1 k1 v with h | h
      · rw [h]
      · rw [h, hFrame.1 _ _ _ _ (fun h0 => hk h0.symm)]
  · apply GetKey_congr
    · rcases DeleteKey_db c db w n1 k1 with h | h
      · rw [h]
      · rw [h, hFrame.2 _ _ _
          (generateMetaKey_ne_generateNamespaceKey c hApart n2 n1 k1)]
    · rcases DeleteKey_db c db w n1 k1 with h | h
      · rw [h]
      · rw [h, hFrame.2 _ _ _ (fun h0 => hk h0.symm)]

/-- Witness of C28: the namespaces `b` and `a`, both active. -/
theorem namespaces_disjoint_witness :
    ('.' ∉ (['b'] : Bytes) ∧ '.' ∉ (['a'] : Bytes) ∧ (['b'] : Bytes) ≠ ['a'] ∧
      (SetKey exampleConfig memKV
        (CreateNamespace exampleConfig memKV exampleActive ['b']).2 ['b'] ['k'] ['v']).1 =
        none) ∧
    (¬ generateNamespaceKey exampleConfig ['b'] [] <+:
        generateNamespaceKey exampleConfig ['a'] ['k'] ∧
    generateNamespaceKey exampleConfig ['b'] ['k'] ≠
      generateNamespaceKey exampleConfig ['a'] ['k'] ∧
    (GetKey exampleConfig memKV
        (SetKey exampleConfig memKV
          (CreateNamespace exampleConfig memKV exampleActive ['b']).2 ['b'] ['k'] ['v']).2
        ['a'] ['k']).1 =
      (GetKey exampleConfig memKV
        (CreateNamespace exampleConfig memKV exampleActive ['b']).2 ['a'] ['k']).1 ∧
    (GetKey exampleConfig memKV
        (DeleteKey exampleConfig memKV
          (CreateNamespace exampleConfig memKV exampleActive ['b']).2 ['b'] ['k']).2
        ['a'] ['k']).1 =
      (GetKey exampleConfig memKV
        (CreateNamespace exampleConfig memKV exampleActive ['b']).2 ['a'] ['k']).1) :=
  ⟨⟨by decide, by decide, by decide, by decide⟩,
    namespaces_disjoint exampleConfig memKV
      (CreateNamespace exampleConfig memKV exampleActive ['b']).2 ['b'] ['a'] ['k'] ['k']
      ['v'] (by decide) (by decide) (by decide) exampleConfig_apart memKV_frame⟩

/-! ## The loop of the collector -/

/-- C25: cancelling the collector between ticks stops the loop without further store
access.  Once the loop takes the case `<-ctx.Done()` it returns and leaves the store and
its call log as they are, whatever would come after; and when the loop, after any
`select`s `pre`, reaches its `select` with no tick ready and takes a case that can
proceed, that case is `<-ctx.Done()`: the run is the run that ends there, and when the
loop was at its `select` with the store `w1` it returns with `w1`, no call issued on the
store since. -/
theorem GarbageCollection_cancelled_between_ticks {σ : Type} (c : Config)
    (db : kv.Service σ) (w : World σ) (pre : List (Ready × Branch)) (r : Ready)
    (b : Branch) (rest : List (Ready × Branch))
    (hTick : r.tick = false) (hAllowed : r.allows b = true) :
    GarbageCollection c db w ((r, Branch.cancelled) :: rest) = Loop.returned w ∧
    b = Branch.cancelled ∧
    GarbageCollection c db w (pre ++ (r, b) :: rest) =
      GarbageCollection c db w (pre ++ [(r, Branch.cancelled)]) ∧
    ∀ w1, GarbageCollection c db w pre = Loop.running w1 →
      GarbageCollection c db w (pre ++ (r, b) :: rest) = Loop.returned w1 := by
  have hb := Ready.allows_cancelled_only r b hTick hAllowed
  subst hb
  refine ⟨rfl, rfl, ?_, ?_⟩
  · rw [GarbageCollection_append, GarbageCollection_append]
    cases GarbageCollection c db w pre with
    | returned w1 => rfl
    | running w1 => rfl
  · intro w1 h1
    rw [GarbageCollection_append, h1]
    rfl

/-- Witness of C25: one tick on the store with `a` marked, then the cancellation with
no tick ready; the loop returns with the store that the cycle of the tick left. -/
theorem GarbageCollection_cancelled_between_ticks_witness :
    (({ cancelled := true, tick := false } : Ready).tick = false ∧
      ({ cancelled := true, tick := false } : Ready).allows Branch.cancelled = true) ∧
    (GarbageCollection exampleConfig memService exampleGC
        (({ cancelled := true, tick := false }, Branch.cancelled) ::
          [({ cancelled := true, tick := true }, Branch.tick)]) =
      Loop.returned exampleGC ∧
    Branch.cancelled = Branch.cancelled ∧
    GarbageCollection exampleConfig memService exampleGC
        ([({ cancelled := false, tick := true }, Branch.tick)] ++
          ({ cancelled := true, tick := false }, Branch.cancelled) ::
          [({ cancelled := true, tick := true }, Branch.tick)]) =
      GarbageCollection exampleConfig memService exampleGC
        ([({ cancelled := false, tick := true }, Branch.tick)] ++
          [({ cancelled := true, tick := false }, Branch.cancelled)]) ∧
    ∀ w1, GarbageCollection exampleConfig memService exampleGC
        [({ cancelled := false, tick := true }, Branch.tick)] = Loop.running w1 →
      GarbageCollection exampleConfig memService exampleGC
        ([({ cancelled := false, tick := true }, Branch.tick)] ++
          ({ cancelled := true, tick := false }, Branch.cancelled) ::
          [({ cancelled := true, tick := true }, Branch.tick)]) = Loop.returned w1) :=
  ⟨⟨rfl, rfl⟩,
    GarbageCollection_cancelled_between_ticks exampleConfig memService exampleGC
      [({ cancelled := false, tick := true }, Branch.tick)]
      { cancelled := true, tick := false } Branch.cancelled
      [({ cancelled := true, tick := true }, Branch.tick)] rfl rfl⟩

/-- Counterexample of C26: the loop reaches its `select` with the context cancelled and
a tick ready.  The `select` of Go admits the case `<-t.Chan()`: in that run the loop
does not return, it runs a garbage-collection cycle on the store with `a` marked (the
discovery scan and one wipe batch) after the cancellation has fired. -/
theorem GarbageCollection_tick_after_cancellation :
    Admissible [(({ cancelled := true, tick := true } : Ready), Branch.tick)] ∧
    GarbageCollection exampleConfig memService exampleGC
        [({ cancelled := true, tick := true }, Branch.tick)] =
      Loop.running (GarbageCollectionTick exampleConfig memService exampleGC).2 ∧
    (GarbageCollectionTick exampleConfig memService exampleGC).2.calls =
      [Call.NewIterator (generateMetaKey exampleConfig []) none, Call.RWBatch] ∧
    memKV.Get exampleGC.db (generateMetaKey exampleConfig ['a']) =
      (some NamespaceDeletingValue, none) ∧
    memKV.Get (GarbageCollectionTick exampleConfig memService exampleGC).2.db
      (generateMetaKey exampleConfig ['a']) = (none, some kv.ErrKeyNotFound) := by
  refine ⟨?_, rfl, by decide, by decide, by decide⟩
  intro x hx
  rw [List.mem_singleton] at hx
  subst hx
  rfl

/-- C26 (amended): when the loop reaches its `select` with the cancellation signal
already fired and takes a case that can proceed, then with no tick ready it takes the
case `<-ctx.Done()` and returns without a call on the store; with a tick ready as well
it either takes the case `<-ctx.Done()` and returns, or takes the case `<-t.Chan()` and
runs one garbage-collection cycle before it reaches its `select` again.  Once it takes
the case `<-ctx.Done()` it returns and runs no cycle afterwards. -/
theorem GarbageCollection_after_cancellation {σ : Type} (c : Config) (db : kv.Service σ)
    (w : World σ) (r : Ready) (b : Branch) (rest : List (Ready × Branch))
    (hFired : r.cancelled = true) (hAllowed : r.allows b = true) :
    (r.tick = false → GarbageCollection c db w ((r, b) :: rest) = Loop.returned w) ∧
    (GarbageCollection c db w ((r, b) :: rest) = Loop.returned w ∨
      (r.tick = true ∧ b = Branch.tick ∧
        GarbageCollection c db w ((r, b) :: rest) =
          GarbageCollection c db (GarbageCollectionTick c db w).2 rest)) ∧
    GarbageCollection c db w ((r, Branch.cancelled) :: rest) = Loop.returned w ∧
    r.allows Branch.cancelled = true := by
  refine ⟨?_, ?_, rfl, hFired⟩
  · intro ht
    rw [Ready.allows_cancelled_only r b ht hAllowed]
    rfl
  · cases b with
    | cancelled => exact Or.inl rfl
    | tick => exact Or.inr ⟨hAllowed, rfl, rfl⟩

/-- Witness of C26 (amended): the context is cancelled and no tick is ready. -/
theorem GarbageCollection_after_cancellation_witness :
    (({ cancelled := true, tick := false } : Ready).cancelled = true ∧
      ({ cancelled := true, tick := false } : Ready).allows Branch.cancelled = true) ∧
    ((({ cancelled := true, tick := false } : Ready).tick = false →
      GarbageCollection exampleConfig memService exampleGC
        [({ cancelled := true, tick := false }, Branch.cancelled)] =
        Loop.returned exampleGC) ∧
    (GarbageCollection exampleConfig memService exampleGC
        [({ cancelled := true, tick := false }, Branch.cancelled)] =
        Loop.returned exampleGC ∨
      (({ cancelled := true, tick := false } : Ready).tick = true ∧
        Branch.cancelled = Branch.tick ∧
        GarbageCollection exampleConfig memService exampleGC
          [({ cancelled := true, tick := false }, Branch.cancelled)] =
          GarbageCollection exampleConfig memService
            (GarbageCollectionTick exampleConfig memService exampleGC).2 [])) ∧
    GarbageCollection exampleConfig memService exampleGC
      [({ cancelled := true, tick := false }, Branch.cancelled)] =
      Loop.returned exampleGC ∧
    ({ cancelled := true, tick := false } : Ready).allows Branch.cancelled = true) :=
  ⟨⟨rfl, rfl⟩,
    GarbageCollection_after_cancellation exampleConfig memService exampleGC
      { cancelled := true, tick := false } Branch.cancelled [] rfl rfl⟩

/-! ## The meta-value invariant -/

/-- C29: the meta-value invariant.  When every entry of the meta range has the value
`EXISTS` or `DELETING`, the same holds after every finite sequence of operations of the
service: `CreateNamespace`, `DeleteNamespace`, `GetKey`, `SetKey` with an arbitrary
value, `DeleteKey` and garbage-collection cycles, whatever each returns; and starting
from a store in which every key is absent, every store the service reaches satisfies it.
Stated for prefixes that keep meta keys and data keys apart, on a store with per-key
read-after-write, not-found after a `Delete`, writes that leave the other keys alone, a
failed `Set` that leaves its key as it was, and all-or-nothing batches. -/
theorem meta_values_invariant {σ : Type} (c : Config) (db : kv.Service σ)
    (hApart : c.Apart) (hRAW : kv.ReadAfterWrite db.toReadWriter)
    (hRAD : kv.ReadAfterDelete db.toReadWriter) (hFrame : kv.Frame db.toReadWriter)
    (hKeeps : kv.FailedSetKeeps db.toReadWriter) (hAtomic : kv.AllOrNothing db)
    (acts : List Action) (w : World σ) :
    (MetaValuesOk c db.toReadWriter w.db →
      MetaValuesOk c db.toReadWriter (runActions c db w acts).db) ∧
    ((∀ k, kv.Absent db.toReadWriter w.db k) →
      MetaValuesOk c db.toReadWriter (runActions c db w acts).db) := by
  have hstep : ∀ (a : Action) (w0 : World σ), MetaValuesOk c db.toReadWriter w0.db →
      MetaValuesOk c db.toReadWriter (Action.run c db w0 a).db := by
    intro a w0 h0
    cases a with
    | op o => exact metaValuesOk_op c db.toReadWriter hApart hRAW hFrame hKeeps w0 o h0
    | gc => exact metaValuesOk_tick c db hRAD hFrame hAtomic w0 h0
  have hrun : MetaValuesOk c db.toReadWriter w.db →
      MetaValuesOk c db.toReadWriter (runActions c db w acts).db := by
    induction acts generalizing w with
    | nil => exact fun h => h
    | cons a rest ih => exact fun h => ih (Action.run c db w a) (hstep a w h)
  refine ⟨hrun, fun hEmpty => hrun ?_⟩
  intro k v _ hg
  obtain ⟨e, _, he⟩ := hEmpty k
  rw [he] at hg
  simp at hg

/-- Witness of C29: from the empty in-memory store, `a` is created, a key of `a` is set
to the bytes `DELETING`, `b` is created and deleted, a cycle runs, `b` is created
again and a key of `a` is deleted. -/
theorem meta_values_invariant_witness :
    (exampleConfig.Apart ∧ ∀ k, kv.Absent memKV exampleEmpty.db k) ∧
    ((MetaValuesOk exampleConfig memKV exampleEmpty.db →
      MetaValuesOk exampleConfig memKV (runActions exampleConfig memService exampleEmpty
        [Action.op (Op.CreateNamespace ['a']),
          Action.op (Op.SetKey ['a'] ['k'] NamespaceDeletingValue),
          Action.op (Op.CreateNamespace ['b']), Action.op (Op.DeleteNamespace ['b']),
          Action.gc, Action.op (Op.CreateNamespace ['b']),
          Action.op (Op.DeleteKey ['a'] ['k'])]).db) ∧
    ((∀ k, kv.Absent memKV exampleEmpty.db k) →
      MetaValuesOk exampleConfig memKV (runActions exampleConfig memService exampleEmpty
        [Action.op (Op.CreateNamespace ['a']),
          Action.op (Op.SetKey ['a'] ['k'] NamespaceDeletingValue),
          Action.op (Op.CreateNamespace ['b']), Action.op (Op.DeleteNamespace ['b']),
          Action.gc, Action.op (Op.CreateNamespace ['b']),
          Action.op (Op.DeleteKey ['a'] ['k'])]).db)) :=
  ⟨⟨exampleConfig_apart, fun _ => ⟨kv.ErrKeyNotFound, by decide, rfl⟩⟩,
    meta_values_invariant exampleConfig memService exampleConfig_apart memKV_readAfterWrite
      memKV_readAfterDelete memKV_frame memKV_failedSetKeeps memService_allOrNothing
      [Action.op (Op.CreateNamespace ['a']),
        Action.op (Op.SetKey ['a'] ['k'] NamespaceDeletingValue),
        Action.op (Op.CreateNamespace ['b']), Action.op (Op.DeleteNamespace ['b']),
        Action.gc, Action.op (Op.CreateNamespace ['b']),
        Action.op (Op.DeleteKey ['a'] ['k'])]
      exampleEmpty⟩

end GravelDB
